import Mathlib

/-!
Verification development for the SWE task-verification orchestrator
(`verify_tasks.py` and `src/run_batch/runners/container_helpers.py`).

The Python code is shallowly embedded: pure helpers become Lean functions;
each external side effect (a `docker` subprocess call, a log append, the
`result.json` dump) is recorded as an `Event` in a trace, and every fallible
external call is driven by an environment value of type `Except Unit _`
(`.error ()` models the call raising an exception, `.ok v` models it
returning normally with value `v`).  Host-local log writes are modelled as
infallible.  Python `str` methods (`strip`, `startswith`, …) are modelled
over `List Char`.
-/

/-- Python str truthiness/strip helpers: a model of the regex class `\s` and
of `str.strip` (both Python and the regex treat space, tab, CR, LF alike for
the inputs this program sees). -/
def isPySpace (c : Char) : Bool := c.isWhitespace

/-- Drop characters satisfying `p` from both ends of a character list
(Python `str.strip(chars)`). -/
def stripBoth (p : Char → Bool) (l : List Char) : List Char :=
  ((l.dropWhile p).reverse.dropWhile p).reverse

/-- Python `s.strip()` (whitespace from both ends). -/
def pyStrip (s : String) : String := ⟨stripBoth isPySpace s.data⟩

/-- Python `s.strip(c)` for a single character `c`. -/
def pyStripChar (c : Char) (s : String) : String := ⟨stripBoth (· == c) s.data⟩

/-- Python `s.rstrip(c)` for a single character `c`. -/
def pyRstripChar (c : Char) (s : String) : String :=
  ⟨(s.data.reverse.dropWhile (· == c)).reverse⟩

/-- Python `s.startswith(pre)`. -/
def startswith (s pre : String) : Bool := pre.data.isPrefixOf s.data

/-- Characters of the (lower-cased) directive matched by the regex
`(?im)^\s*WORKDIR\s+(.+)$` in `verify_tasks.parse_workdir_from_dockerfile`
and `container_helpers.infer_repo_dir_from_dockerfile`. -/
def workdirChars : List Char := ['w', 'o', 'r', 'k', 'd', 'i', 'r']

/-- Strip `pre` from the front of `cs`, comparing case-insensitively
(the regexes carry the `i` flag). -/
def stripCaseInsensitive : List Char → List Char → Option (List Char)
  | [], cs => some cs
  | _ :: _, [] => none
  | p :: ps, c :: cs => if c.toLower = p then stripCaseInsensitive ps cs else none

/-- Drop the current line: everything up to and including the next `'\n'`. -/
def afterLine : List Char → List Char
  | [] => []
  | c :: cs => if c = '\n' then cs else afterLine cs

/-- The scanning loop behind `findWorkdirMatches`, structurally recursive
on a fuel bound so that it reduces definitionally.  Every recursive call
strictly shrinks the text (each step consumes at least the matched
`WORKDIR` or advances past a newline), so fuel `cs.length + 1` never runs
out and the `fuel = 0` branch is unreachable for the wrapper below. -/
def findWorkdirMatchesAux : Nat → List Char → List String
  | 0, _ => []
  | fuel + 1, cs =>
    match stripCaseInsensitive workdirChars (cs.dropWhile isPySpace) with
    | none =>
      if (cs.dropWhile isPySpace).isEmpty then []
      else findWorkdirMatchesAux fuel (afterLine (cs.dropWhile isPySpace))
    | some rem =>
      if (rem.takeWhile isPySpace).isEmpty then
        -- `\s+` needs at least one whitespace character: no match at this start
        findWorkdirMatchesAux fuel (afterLine rem)
      else if (rem.dropWhile isPySpace).isEmpty then
        -- the text ends in whitespace after WORKDIR: backtrack inside the run;
        -- no later match is possible (only whitespace remains)
        match (rem.takeWhile isPySpace).reverse.dropWhile (· = '\n') with
        | g :: _ :: _ => [String.mk [g]]
        | _ => []
      else
        -- the group runs from the first non-whitespace character to its line end
        String.mk ((rem.dropWhile isPySpace).takeWhile (· ≠ '\n')) ::
          findWorkdirMatchesAux fuel (afterLine (rem.dropWhile isPySpace))

/-- The captured groups of `finditer` for `(?im)^\s*WORKDIR\s+(.+)$` over
the text, in order.  The scan replays the regex faithfully: `^` anchors at
line starts, `\s*`/`\s+` may cross newlines (so the mandatory whitespace
after `WORKDIR` can run into a later line, whose content then becomes the
group), `.` stops at a newline, and when everything after `WORKDIR` is
whitespace the greedy `\s+` backtracks, leaving the last non-newline
whitespace character as the group (provided at least one whitespace
character precedes it).  Matches do not overlap; scanning resumes at the
line start after each match or failed attempt. -/
def findWorkdirMatches (cs : List Char) : List String :=
  findWorkdirMatchesAux (cs.length + 1) cs

/-- Model of `verify_tasks.parse_workdir_from_dockerfile`.  The argument is
the build file's text, `none` when `dockerfile.read_text` raised (the source
catches that and returns `None`).  The last matching `WORKDIR` line's value
is stripped of whitespace, quotes and trailing slashes; an empty value gives
`None`; a relative value is prefixed with `/`. -/
def parse_workdir_from_dockerfile (txt : Option String) : Option String :=
  match txt with
  | none => none
  | some t =>
    match (findWorkdirMatches t.data).getLast? with
    | none => none
    | some g =>
      let val := pyRstripChar '/' (pyStripChar '"' (pyStripChar (Char.ofNat 39) (pyStrip g)))
      if val = "" then none
      else if startswith val "/" then some val
      else some ⟨'/' :: val.data⟩

/-- Model of `verify_tasks.image_workdir`: `out` is the captured stdout of
`docker image inspect --format` on the image (the exit code is ignored by
the source); the stripped value, empty mapped to `None`. -/
def image_workdir (out : String) : Option String :=
  let val := pyStrip out
  if val = "" then none else some val

/-- The repo-workdir resolution expression of `verify_tasks.process_task`
step 2: `image_workdir(image_tag) or parse_workdir_from_dockerfile(tp.dockerfile)
or default_repo_dir`. -/
def resolve_repo_dir (inspectOut : String) (dockerfileText : Option String)
    (default_repo_dir : String) : String :=
  ((image_workdir inspectOut) <|> parse_workdir_from_dockerfile dockerfileText).getD
    default_repo_dir

namespace ContainerHelpers

/-- Model of `container_helpers.image_workdir`: there the inspect call runs
with `check=True` inside `try/except`, so a failed call (argument `none`)
yields `None`; otherwise the stripped stdout, empty mapped to `None`. -/
def image_workdir (res : Option String) : Option String :=
  match res with
  | none => none
  | some out =>
    let v := pyStrip out
    if v = "" then none else some v

/-- Model of `container_helpers.infer_repo_dir_from_dockerfile`: like
`parse_workdir_from_dockerfile` but WITHOUT the leading-slash coercion
(in this version the caller `find_repo_dir` performs the coercion). -/
def infer_repo_dir_from_dockerfile (txt : Option String) : Option String :=
  match txt with
  | none => none
  | some t =>
    match (findWorkdirMatches t.data).getLast? with
    | none => none
    | some g =>
      let fw := pyRstripChar '/' (pyStripChar '"' (pyStripChar (Char.ofNat 39) (pyStrip g)))
      if fw = "" then none else some fw

/-- Model of `pathlib.PurePosixPath(s).name`: the last path component, with
empty components and lone dots discarded at parse time. -/
def pathName (s : String) : String :=
  (((s.splitOn "/").filter (fun p => p ≠ "" && p ≠ ".")).getLast?).getD ""

/-- Model of `container_helpers.find_repo_dir`: image WorkingDir, else the
build file's last WORKDIR, else `/app`; then coerced to an absolute path by
prefixing `/` when needed; paired with the repository name. -/
def find_repo_dir (inspectRes : Option String) (dockerfileText : Option String) :
    String × String :=
  let repo_dir :=
    ((image_workdir inspectRes) <|> infer_repo_dir_from_dockerfile dockerfileText).getD "/app"
  let repo_dir := if startswith repo_dir "/" then repo_dir else ⟨'/' :: repo_dir.data⟩
  let repo_name := pathName repo_dir
  let repo_name := if repo_name = "" then "app" else repo_name
  (repo_dir, repo_name)

end ContainerHelpers

/-- Observable side effects of one `process_task` run, in order.  Each
constructor records one external call of the source: `echo` an
`echo_to_log` line, `tryStrategy` the "Trying strategy" log line that
precedes each patch-application attempt (with the attempt's index and
strategy name), `build` the `docker build`, `inspect` the
`docker image inspect`, `start`/`stopRm` the container lifecycle calls with
the container name, `cp` a `docker cp` (destination path), `exec` a
`docker exec`, `runTest` the step-7 test invocation with the test command,
and `writeResult` the `result.json` dump of step 9. -/
inductive Event where
  | echo (line : String)
  | tryStrategy (ptype : String) (idx : Nat) (sname : String)
  | build
  | inspect
  | start (cname : String)
  | stopRm (cname : String)
  | cp (dst : String)
  | exec (container : String) (cmd : String)
  | runTest (cmd : String)
  | writeResult
deriving DecidableEq, Repr

/-- Events that the `try` block of `process_task` (steps 4-7) can emit:
everything except container start/stop, build, inspect and the result dump. -/
def Event.isBody : Event → Bool
  | .echo _ => true
  | .tryStrategy _ _ _ => true
  | .cp _ => true
  | .exec _ _ => true
  | .runTest _ => true
  | _ => false

/-- Log-only events (the `echo_to_log` lines). -/
def Event.isEcho : Event → Bool
  | .echo _ => true
  | _ => false

/-- Indices of the patch-application attempts recorded in a trace, in order. -/
def attemptIdxs (tr : List Event) : List Nat :=
  tr.filterMap fun e =>
    match e with
    | .tryStrategy _ i _ => some i
    | _ => none

/-- One patch-application strategy of `apply_patch_robustly`: a display name
and the shell invocation run via `docker exec`. -/
structure Strategy where
  name : String
  cmd : String
deriving DecidableEq, Repr

/-- The seven strategies of `verify_tasks.apply_patch_robustly`, in source
order. -/
def strategies (repo_dir patch_file : String) : List Strategy :=
  [{ name := "git apply (robust)",
     cmd := s!"cd \"{repo_dir}\" && command -v git >/dev/null 2>&1 && git apply -v --recount --unidiff-zero --whitespace=fix \"{patch_file}\"" },
   { name := "git apply (basic)",
     cmd := s!"cd \"{repo_dir}\" && command -v git >/dev/null 2>&1 && git apply \"{patch_file}\"" },
   { name := "git apply (ignore whitespace)",
     cmd := s!"cd \"{repo_dir}\" && command -v git >/dev/null 2>&1 && git apply --ignore-whitespace \"{patch_file}\"" },
   { name := "patch -p1",
     cmd := s!"cd \"{repo_dir}\" && command -v patch >/dev/null 2>&1 && patch -p1 --no-backup-if-mismatch -i \"{patch_file}\"" },
   { name := "patch -p1 (fuzzy)",
     cmd := s!"cd \"{repo_dir}\" && command -v patch >/dev/null 2>&1 && patch -p1 --no-backup-if-mismatch --fuzz=3 -i \"{patch_file}\"" },
   { name := "patch -p0",
     cmd := s!"cd \"{repo_dir}\" && command -v patch >/dev/null 2>&1 && patch -p0 --no-backup-if-mismatch -i \"{patch_file}\"" },
   { name := "patch -p0 (fuzzy)",
     cmd := s!"cd \"{repo_dir}\" && command -v patch >/dev/null 2>&1 && patch -p0 --no-backup-if-mismatch --fuzz=3 -i \"{patch_file}\"" }]

theorem strategies_length (repo_dir patch_file : String) :
    (strategies repo_dir patch_file).length = 7 := rfl

/-- The `i`-th strategy. -/
def strategy (repo_dir patch_file : String) (i : Fin 7) : Strategy :=
  (strategies repo_dir patch_file).get (Fin.cast (strategies_length repo_dir patch_file).symm i)

/-- Environment of one `apply_patch_robustly` call: the exit code of the
`[ -f patch ]` existence check and of each strategy's `docker exec`
(`.error ()` = the underlying subprocess call raised). -/
structure ApplyEnv where
  checkRes : Except Unit Int
  stratRes : Fin 7 → Except Unit Int

/-- The strategy loop of `apply_patch_robustly`, tried over the (index) list
`l`: log the attempt, run the strategy, stop at the first exit code 0,
otherwise log the failure and continue; when `l` is exhausted log the final
error and report failure. -/
def tryStrats (aenv : ApplyEnv) (container repo_dir patch_file ptype : String) :
    List (Fin 7) → Except Unit Bool × List Event
  | [] => (.ok false,
      [.echo s!"ERROR: All patch application strategies failed for {ptype} patch"])
  | i :: rest =>
    let st := strategy repo_dir patch_file i
    let n := st.name
    let pre := [Event.tryStrategy ptype i.1 n, Event.exec container st.cmd]
    match aenv.stratRes i with
    | .error e => (.error e, pre)
    | .ok code =>
      if code = 0 then
        (.ok true, pre ++ [.echo s!"SUCCESS: {ptype} patch applied using {n}"])
      else
        let nxt := tryStrats aenv container repo_dir patch_file ptype rest
        (nxt.1, (pre ++ [.echo s!"FAILED: {n} returned code {code}"]) ++ nxt.2)

/-- Model of `verify_tasks.apply_patch_robustly`: check the patch file
exists in the container (missing = immediate success), then try the seven
strategies in order. -/
def apply_patch_robustly (aenv : ApplyEnv) (container patch_file repo_dir ptype : String) :
    Except Unit Bool × List Event :=
  let tr0 := [Event.echo s!"=== Attempting to apply {ptype} patch: {patch_file} ===",
              Event.exec container s!"[ -f \"{patch_file}\" ]"]
  match aenv.checkRes with
  | .error e => (.error e, tr0)
  | .ok c =>
    if c ≠ 0 then
      (.ok true, tr0 ++ [.echo s!"WARNING: {ptype} patch file {patch_file} does not exist"])
    else
      let nxt := tryStrats aenv container repo_dir patch_file ptype (List.finRange 7)
      (nxt.1, tr0 ++ nxt.2)

/-- The Result Record (`result` dict) that `process_task` builds.  The
`paths` map is flattened into its three entries. -/
structure ResultRecord where
  task_id : String
  image_tag : String
  repo_dir : Option String
  build_ok : Bool
  agent_patch_ok : Bool
  test_patch_ok : Bool
  test_ok : Bool
  test_exit_code : Option Int
  skipped : Bool
  skip_reason : Option String
  notes : List String
  paths_build_log : String
  paths_setup_log : String
  paths_test_log : String
deriving DecidableEq, Repr

/-- Environment of one `process_task` call: what the host filesystem and
every external `docker` invocation answer.  `Except Unit _` values model a
call that can raise (`.error`) or return (`.ok`); file-existence checks and
the log directory are plain values; `dockerfileText` is `none` when reading
the build file raises (which `parse_workdir_from_dockerfile` swallows);
`nameSuffix` is the random hex suffix `uuid.uuid4().hex[:8]` of
`unique_container_name`. -/
structure PEnv where
  logsDir : String
  dockerfileExists : Bool
  testCmdFileExists : Bool
  readTestCmd : Except Unit String
  buildRes : Except Unit Int
  inspectRes : Except Unit String
  dockerfileText : Option String
  nameSuffix : String
  startRes : Except Unit Int
  agentPatchExists : Bool
  cpAgentRes : Except Unit Int
  testPatchExists : Bool
  cpTestRes : Except Unit Int
  agentApply : ApplyEnv
  tarRes : Except Unit Int
  findRes : Except Unit Int
  extractApplyRes : Except Unit Int
  testRunRes : Except Unit Int
  stopRes : Except Unit Int

/-- Model of `verify_tasks.unique_container_name`. -/
def unique_container_name (tid suffix : String) : String :=
  "task" ++ tid ++ "_runner_" ++ suffix

/-- The freshly initialised `result` dict of `process_task`. -/
def initialResult (tid logs_dir : String) : ResultRecord :=
  { task_id := tid,
    image_tag := "task" ++ tid ++ ":test-run",
    repo_dir := none,
    build_ok := false,
    agent_patch_ok := false,
    test_patch_ok := false,
    test_ok := false,
    test_exit_code := none,
    skipped := false,
    skip_reason := none,
    notes := [],
    paths_build_log := logs_dir ++ "/build.log",
    paths_setup_log := logs_dir ++ "/setup.log",
    paths_test_log := logs_dir ++ "/test.log" }

/-- The `tar -xf` command of step 6. -/
def tarCmd (repo_dir : String) : String :=
  s!"cd \"{repo_dir}\" && tar -xf /tmp/test_patch.tar"

/-- The patch-file discovery command of step 6. -/
def patchCheckCmd (repo_dir : String) : String :=
  s!"cd \"{repo_dir}\" && find . -maxdepth 2 -name \"*.patch\" -o -name \"*.diff\" | head -5"

/-- The single shell script of step 6 that applies every extracted patch
file through the same seven-strategy ladder (whitespace condensed). -/
def applyExtractedCmd (repo_dir : String) : String :=
  s!"cd \"{repo_dir}\"\nsuccess=true\nfor pf in $(find . -maxdepth 2 -name \"*.patch\" -o -name \"*.diff\"); do\necho \"Attempting to apply extracted patch: $pf\"\nif ! (git apply -v --recount --unidiff-zero --whitespace=fix \"$pf\" || git apply \"$pf\" || git apply --ignore-whitespace \"$pf\" || patch -p1 --no-backup-if-mismatch -i \"$pf\" || patch -p1 --no-backup-if-mismatch --fuzz=3 -i \"$pf\" || patch -p0 --no-backup-if-mismatch -i \"$pf\" || patch -p0 --no-backup-if-mismatch --fuzz=3 -i \"$pf\"); then\necho \"ERROR: Failed to apply patch $pf\"\nsuccess=false\nbreak\nelse\necho \"SUCCESS: Applied patch $pf\"\nfi\ndone\n$success"

/-- Step 7 of `process_task`: run the test command, record the raw exit
code, and set `test_ok` iff it is zero.  The `true` component marks that
the `try` block fell through (so step 9 will write `result.json`). -/
def body_run_tests (env : PEnv) (r : ResultRecord) (test_cmd : String) :
    Except Unit (Bool × ResultRecord) × List Event :=
  let tr := [Event.runTest test_cmd]
  match env.testRunRes with
  | .error e => (.error e, tr)
  | .ok ec =>
    (.ok (true, { r with test_exit_code := some ec, test_ok := decide (ec = 0) }), tr)

/-- Step 6 of `process_task`: when a test-patch archive was copied in,
extract it, look for patch files, and apply them via the single shell
script; any failure is a terminal skip. -/
def body_test_patch (env : PEnv) (r : ResultRecord) (cname repo_dir test_cmd : String) :
    Except Unit (Bool × ResultRecord) × List Event :=
  if env.testPatchExists then
    let tr1 := [Event.exec cname (tarCmd repo_dir)]
    match env.tarRes with
    | .error e => (.error e, tr1)
    | .ok tc =>
      if tc ≠ 0 then
        (.ok (false, { r with
            notes := r.notes ++ ["Failed to extract test_patch.tar"],
            skipped := true,
            skip_reason := some "Failed to extract test_patch.tar" }), tr1)
      else
        let tr2 := tr1 ++ [Event.exec cname (patchCheckCmd repo_dir)]
        match env.findRes with
        | .error e => (.error e, tr2)
        | .ok fc =>
          if fc = 0 then
            let tr3 := tr2 ++ [Event.exec cname (applyExtractedCmd repo_dir)]
            match env.extractApplyRes with
            | .error e => (.error e, tr3)
            | .ok ac =>
              let r2 := { r with test_patch_ok := decide (ac = 0) }
              if ac ≠ 0 then
                (.ok (false, { r2 with
                    skipped := true,
                    skip_reason := some "Test patch failed to apply",
                    notes := r2.notes ++ ["Task skipped: test patch application failed"] }), tr3)
              else
                let nxt := body_run_tests env r2 test_cmd
                (nxt.1, tr3 ++ nxt.2)
          else
            let nxt := body_run_tests env { r with test_patch_ok := true } test_cmd
            (nxt.1, tr2 ++ nxt.2)
  else
    let nxt := body_run_tests env { r with test_patch_ok := true } test_cmd
    nxt

/-- Step 5 of `process_task`: apply the agent patch with the robust
strategies; failure is a terminal skip, absence of the patch counts as
success. -/
def body_apply_agent (env : PEnv) (r : ResultRecord) (cname repo_dir test_cmd : String) :
    Except Unit (Bool × ResultRecord) × List Event :=
  if env.agentPatchExists then
    let ap := apply_patch_robustly env.agentApply cname "/tmp/agent.patch" repo_dir "agent"
    match ap.1 with
    | .error e => (.error e, ap.2)
    | .ok ok =>
      let r2 := { r with agent_patch_ok := ok }
      if !ok then
        (.ok (false, { r2 with
            skipped := true,
            skip_reason := some "Agent patch failed to apply",
            notes := r2.notes ++ ["Task skipped: agent patch application failed"] }), ap.2)
      else
        let nxt := body_test_patch env r2 cname repo_dir test_cmd
        (nxt.1, ap.2 ++ nxt.2)
  else
    body_test_patch env { r with agent_patch_ok := true } cname repo_dir test_cmd

/-- Second half of step 4: copy the test-patch archive in when present;
a copy failure is a terminal skip. -/
def body_copy_test (env : PEnv) (r : ResultRecord) (cname repo_dir test_cmd : String) :
    Except Unit (Bool × ResultRecord) × List Event :=
  if env.testPatchExists then
    let tr1 := [Event.cp "/tmp/test_patch.tar"]
    match env.cpTestRes with
    | .error e => (.error e, tr1)
    | .ok c =>
      if c ≠ 0 then
        (.ok (false, { r with
            notes := r.notes ++ ["Failed to docker cp test_patch.tar"],
            skipped := true,
            skip_reason := some "Failed to copy test patch to container" }), tr1)
      else
        let nxt := body_apply_agent env r cname repo_dir test_cmd
        (nxt.1, tr1 ++ nxt.2)
  else
    let nxt := body_apply_agent env r cname repo_dir test_cmd
    (nxt.1, Event.echo "NOTE: No test_patch.tar" :: nxt.2)

/-- The whole `try` block of `process_task` (steps 4-7), entered after a
successful container start.  Returns `(fellThrough, record)`: the early
`return result` statements of the source yield `false` (step 9 skipped),
the fall-through after step 7 yields `true`. -/
def taskBody (env : PEnv) (r : ResultRecord) (cname repo_dir test_cmd : String) :
    Except Unit (Bool × ResultRecord) × List Event :=
  if env.agentPatchExists then
    let tr1 := [Event.cp "/tmp/agent.patch"]
    match env.cpAgentRes with
    | .error e => (.error e, tr1)
    | .ok c =>
      if c ≠ 0 then
        (.ok (false, { r with
            notes := r.notes ++ ["Failed to docker cp agent patch"],
            skipped := true,
            skip_reason := some "Failed to copy agent patch to container" }), tr1)
      else
        let nxt := body_copy_test env r cname repo_dir test_cmd
        (nxt.1, tr1 ++ nxt.2)
  else
    let nxt := body_copy_test env r cname repo_dir test_cmd
    (nxt.1, Event.echo "NOTE: Missing agent patch" :: nxt.2)

/-- Model of `verify_tasks.process_task`.  The first component is the
returned Result Record, or `.error ()` when an exception escapes; the
second is the ordered trace of side effects.  The `try/finally` of the
source is explicit: every exit from `taskBody` — normal or exceptional —
is followed by the `stop_rm_container` invocation, whose own failure
(`stopRes = .error`) replaces the in-flight outcome exactly as a raising
`finally` block does; `result.json` (step 9) is written only on the
fall-through path. -/
def processTask (env : PEnv) (tid : String) (default_repo_dir : String) :
    Except Unit ResultRecord × List Event :=
  let r0 := initialResult tid env.logsDir
  if env.dockerfileExists = false then
    (.ok { r0 with notes := r0.notes ++ ["Missing Dockerfile"] },
     [Event.echo "ERROR: Dockerfile missing"])
  else if env.testCmdFileExists = false then
    (.ok { r0 with notes := r0.notes ++ ["Missing test_command.txt"] },
     [Event.echo "ERROR: test_command.txt missing"])
  else
    match env.readTestCmd with
    | .error e => (.error e, [])
    | .ok raw =>
      let test_cmd := pyStrip raw
      if test_cmd = "" then
        (.ok { r0 with notes := r0.notes ++ ["Empty test command"] },
         [Event.echo "ERROR: test_command.txt is empty"])
      else
        let tr1 := [Event.build]
        match env.buildRes with
        | .error e => (.error e, tr1)
        | .ok bc =>
          let r1 := { r0 with build_ok := decide (bc = 0) }
          if bc ≠ 0 then
            (.ok { r1 with notes := r1.notes ++ ["Docker build failed"] }, tr1)
          else
            let tr2 := tr1 ++ [Event.inspect]
            match env.inspectRes with
            | .error e => (.error e, tr2)
            | .ok out =>
              let repo_dir := resolve_repo_dir out env.dockerfileText default_repo_dir
              let r2 := { r1 with repo_dir := some repo_dir }
              let cname := unique_container_name tid env.nameSuffix
              let tr3 := tr2 ++ [Event.start cname]
              match env.startRes with
              | .error e => (.error e, tr3)
              | .ok sc =>
                if sc ≠ 0 then
                  (.ok { r2 with notes := r2.notes ++ ["Failed to start container"] }, tr3)
                else
                  let bo := taskBody env r2 cname repo_dir test_cmd
                  let tr4 := tr3 ++ bo.2 ++ [Event.stopRm cname]
                  match env.stopRes with
                  | .error e => (.error e, tr4)
                  | .ok _ =>
                    match bo.1 with
                    | .error e => (.error e, tr4)
                    | .ok fr =>
                      if fr.1 then (.ok fr.2, tr4 ++ [Event.writeResult])
                      else (.ok fr.2, tr4)

/-- Environment of one `main` run: the result of the `docker --version`
check, the tasks `discover_tasks` found (task id with that task's
environment), and the `--limit` argument. -/
structure MainEnv where
  dockerVersionCode : Except Unit Int
  taskEnvs : List (String × PEnv)
  limit : Nat

/-- The tasks `main` actually processes: `tps[:limit]` when a positive
limit was given. -/
def effTasks (menv : MainEnv) : List (String × PEnv) :=
  if menv.limit > 0 then menv.taskEnvs.take menv.limit else menv.taskEnvs

/-- The per-task loop of `main`.  `process_task` is not wrapped in any
`try/except` there, so an exception escaping it aborts the whole run: the
interpreter exits with status 1, with only the records accumulated so far. -/
def mainLoop : List (String × PEnv) → List ResultRecord → Int × List ResultRecord
  | [], acc => (0, acc)
  | t :: rest, acc =>
    match (processTask t.2 t.1 "/app").1 with
    | .error _ => (1, acc)
    | .ok r => mainLoop rest (acc ++ [r])

/-- Model of `verify_tasks.main`: exit status and the collected records.
`sys.exit(1)` when the `docker --version` check fails (a raising check also
ends the process with status 1) or when no tasks are discovered; otherwise
the loop runs and the process ends with status 0 unless an exception
escapes a task. -/
def mainRun (menv : MainEnv) : Int × List ResultRecord :=
  match menv.dockerVersionCode with
  | .error _ => (1, [])
  | .ok code =>
    if code ≠ 0 then (1, [])
    else if (effTasks menv).isEmpty then (1, [])
    else mainLoop (effTasks menv) []

/-- The `Exit` cell of a `summary.md` row:
`f"{r.get('test_exit_code') or '-'}"` — Python `or` takes the string `"-"`
for both `None` and `0` (both falsy), so only a non-zero exit code is
rendered as a number. -/
def pyOrDash (v : Option Int) : String :=
  match v with
  | none => "-"
  | some c => if c = 0 then "-" else toString c

/-- Python `str(x)` for an optional string (the `skip_reason` lookup in
`write_summary` renders `None` as the text `None` if it ever occurs). -/
def pyShowOptStr : Option String → String
  | none => "None"
  | some s => s

/-- One Markdown table row of `write_summary`'s `summary.md` (the
`str(Path(...))` round-trip on the stored log path is modelled as the
identity, which it is for the slash-joined paths this program builds). -/
def write_summary_row (r : ResultRecord) : String :=
  let mark := fun (b : Bool) => if b then "✅" else "❌"
  let status := if r.skipped then "SKIPPED" else "COMPLETED"
  let skipNote := if r.skipped then " (" ++ pyShowOptStr r.skip_reason ++ ")" else ""
  "| " ++ r.task_id ++ " | " ++ mark r.build_ok ++ " | " ++ mark r.agent_patch_ok ++
    " | " ++ mark r.test_patch_ok ++ " | " ++ mark r.test_ok ++ " | " ++
    pyOrDash r.test_exit_code ++ " | " ++ status ++ skipNote ++ " | " ++
    r.paths_test_log ++ " |"

/-! ## Workdir Resolver (C6) -/

theorem startswith_slash_cons (l : List Char) : startswith ⟨'/' :: l⟩ "/" = true := by
  show List.isPrefixOf "/".data ('/' :: l) = true
  have h : "/".data = ['/'] := rfl
  rw [h]
  simp [List.isPrefixOf]

theorem parse_workdir_absolute (df : Option String) (p : String)
    (h : parse_workdir_from_dockerfile df = some p) : startswith p "/" = true := by
  cases df with
  | none => simp [parse_workdir_from_dockerfile] at h
  | some t =>
    simp only [parse_workdir_from_dockerfile] at h
    split at h
    · exact absurd h (by simp)
    · split at h
      · exact absurd h (by simp)
      · split at h
        · rename_i hsw
          obtain rfl : _ = p := Option.some.injEq _ _ ▸ h
          exact hsw
        · obtain rfl : _ = p := Option.some.injEq _ _ ▸ h
          exact startswith_slash_cons _

theorem find_repo_dir_absolute (ins df : Option String) :
    startswith (ContainerHelpers.find_repo_dir ins df).1 "/" = true := by
  simp only [ContainerHelpers.find_repo_dir]
  split
  · rename_i hsw
    exact hsw
  · exact startswith_slash_cons _

/-- C6: corrected.  The resolver always returns exactly one path with the
stated priority (image metadata, then the build file's last
working-directory directive, then the default); the build-file fallback is
coerced to an absolute path inside `parse_workdir_from_dockerfile`, and
`container_helpers.find_repo_dir` coerces whatever it picked; but the
orchestrator's inline resolution (`verify_tasks.process_task` step 2) uses
the image's configured working directory verbatim, so an image working
directory that does not begin with `/` is NOT coerced there (see the
counterexample). -/
theorem workdir_resolver_spec :
    (∀ out df d w, image_workdir out = some w → resolve_repo_dir out df d = w) ∧
    (∀ out df d p, image_workdir out = none → parse_workdir_from_dockerfile df = some p →
      resolve_repo_dir out df d = p) ∧
    (∀ out df d, image_workdir out = none → parse_workdir_from_dockerfile df = none →
      resolve_repo_dir out df d = d) ∧
    (∀ df p, parse_workdir_from_dockerfile df = some p → startswith p "/" = true) ∧
    (∀ ins df, startswith (ContainerHelpers.find_repo_dir ins df).1 "/" = true) := by
  refine ⟨?_, ?_, ?_, parse_workdir_absolute, find_repo_dir_absolute⟩
  · intro out df d w h
    simp [resolve_repo_dir, h, Option.orElse]
  · intro out df d p h1 h2
    simp [resolve_repo_dir, h1, h2, Option.orElse]
  · intro out df d h1 h2
    simp [resolve_repo_dir, h1, h2, Option.orElse]

/-- C6 counterexample: when `docker image inspect` reports the working
directory `app` (no leading slash), the orchestrator's resolver returns it
uncoerced — the claim's "any result not beginning with `/` is coerced" is
false for the image-metadata source. -/
theorem workdir_resolver_cex :
    resolve_repo_dir "app" none "/app" = "app" ∧ startswith "app" "/" = false := by
  constructor
  · rfl
  · rfl

/-- C6 witness: the theorem applied at concrete inputs — a relative
build-file directive is coerced to `/app`, and with empty image metadata the
resolver falls back to it. -/
theorem workdir_resolver_witness :
    startswith "/app" "/" = true ∧
    resolve_repo_dir "" (some "WORKDIR app") "/app" = "/app" := by
  constructor
  · exact workdir_resolver_spec.2.2.2.1 (some "WORKDIR app") "/app" (by decide)
  · exact workdir_resolver_spec.2.1 "" (some "WORKDIR app") "/app" "/app" (by decide) (by decide)

/-! ## Patch Applier: absent patch file (C5) -/

/-- C5: confirmed.  When the in-container existence check `[ -f patch ]`
exits non-zero (the patch file is absent), `apply_patch_robustly` returns
success immediately and its trace records zero strategy attempts. -/
theorem patch_absent_success (aenv : ApplyEnv) (container patch_file repo_dir ptype : String)
    (c : Int) (hc : aenv.checkRes = Except.ok c) (hne : c ≠ 0) :
    (apply_patch_robustly aenv container patch_file repo_dir ptype).1 = Except.ok true ∧
    attemptIdxs (apply_patch_robustly aenv container patch_file repo_dir ptype).2 = [] := by
  simp [apply_patch_robustly, hc, hne, attemptIdxs]

def aenvAbsent : ApplyEnv := { checkRes := .ok 1, stratRes := fun _ => .ok 0 }

/-- C5 witness: the theorem at a concrete environment whose existence check
exits 1. -/
theorem patch_absent_success_witness :
    (apply_patch_robustly aenvAbsent "c1" "/tmp/agent.patch" "/app" "agent").1 = Except.ok true ∧
    attemptIdxs (apply_patch_robustly aenvAbsent "c1" "/tmp/agent.patch" "/app" "agent").2 = [] :=
  patch_absent_success aenvAbsent "c1" "/tmp/agent.patch" "/app" "agent" 1 rfl (by decide)

/-! ## Summary table Exit column (C10) -/

/-- C10: confirmed.  In `write_summary`'s Markdown table the Exit cell uses
the truthiness of `test_exit_code`: both `None` and `0` render as `-`, a
number appears only for a non-zero exit code, and a passing task renders
the same full row as a task whose tests never ran when all other fields
agree. -/
theorem summary_exit_cell :
    (∀ v : Option Int, (v = none ∨ v = some 0) → pyOrDash v = "-") ∧
    (∀ c : Int, c ≠ 0 → pyOrDash (some c) = toString c) ∧
    (pyOrDash (some 0) = pyOrDash none) ∧
    (∀ r s : ResultRecord, r.task_id = s.task_id → r.build_ok = s.build_ok →
      r.agent_patch_ok = s.agent_patch_ok → r.test_patch_ok = s.test_patch_ok →
      r.test_ok = s.test_ok → r.skipped = s.skipped → r.skip_reason = s.skip_reason →
      r.paths_test_log = s.paths_test_log →
      r.test_exit_code = some 0 → s.test_exit_code = none →
      write_summary_row r = write_summary_row s) := by
  refine ⟨?_, ?_, rfl, ?_⟩
  · rintro v (rfl | rfl) <;> simp [pyOrDash]
  · intro c hc
    simp [pyOrDash, hc]
  · intro r s h1 h2 h3 h4 h5 h6 h7 h8 hr hs
    simp [write_summary_row, h1, h2, h3, h4, h5, h6, h7, h8, hr, hs, pyOrDash]

/-! ## Patch Applier: strategy ladder (C4) -/

theorem attemptIdxs_nil : attemptIdxs [] = [] := rfl

theorem attemptIdxs_append (a b : List Event) :
    attemptIdxs (a ++ b) = attemptIdxs a ++ attemptIdxs b := by
  simp [attemptIdxs]

theorem attemptIdxs_cons_try (pt : String) (idx : Nat) (n : String) (rest : List Event) :
    attemptIdxs (Event.tryStrategy pt idx n :: rest) = idx :: attemptIdxs rest := by
  simp [attemptIdxs]

theorem attemptIdxs_cons_exec (c cmd : String) (rest : List Event) :
    attemptIdxs (Event.exec c cmd :: rest) = attemptIdxs rest := by
  simp [attemptIdxs]

theorem attemptIdxs_cons_echo (s : String) (rest : List Event) :
    attemptIdxs (Event.echo s :: rest) = attemptIdxs rest := by
  simp [attemptIdxs]

theorem tryStrats_all_fail (aenv : ApplyEnv) (container repo_dir patch_file ptype : String)
    (l : List (Fin 7))
    (h : ∀ j ∈ l, ∃ cj, aenv.stratRes j = Except.ok cj ∧ cj ≠ 0) :
    (tryStrats aenv container repo_dir patch_file ptype l).1 = Except.ok false ∧
    attemptIdxs (tryStrats aenv container repo_dir patch_file ptype l).2 = l.map Fin.val := by
  induction l with
  | nil => simp [tryStrats, attemptIdxs]
  | cons i rest ih =>
    obtain ⟨ci, hci, hne⟩ := h i (List.mem_cons_self i rest)
    have hrest := ih (fun j hj => h j (List.mem_cons_of_mem _ hj))
    simp only [tryStrats, hci]
    rw [if_neg hne]
    refine ⟨hrest.1, ?_⟩
    simp [attemptIdxs_append, attemptIdxs_cons_try, attemptIdxs_cons_exec,
      attemptIdxs_cons_echo, attemptIdxs_nil, hrest.2]

theorem tryStrats_first_success (aenv : ApplyEnv) (container repo_dir patch_file ptype : String)
    (l₁ : List (Fin 7)) (i : Fin 7) (l₂ : List (Fin 7))
    (h1 : ∀ j ∈ l₁, ∃ cj, aenv.stratRes j = Except.ok cj ∧ cj ≠ 0)
    (hi : aenv.stratRes i = Except.ok 0) :
    (tryStrats aenv container repo_dir patch_file ptype (l₁ ++ i :: l₂)).1 = Except.ok true ∧
    attemptIdxs (tryStrats aenv container repo_dir patch_file ptype (l₁ ++ i :: l₂)).2 =
      l₁.map Fin.val ++ [i.1] := by
  induction l₁ with
  | nil =>
    simp only [List.nil_append, tryStrats, hi]
    simp [attemptIdxs_append, attemptIdxs_cons_try, attemptIdxs_cons_exec,
      attemptIdxs_cons_echo, attemptIdxs_nil]
  | cons j rest ih =>
    obtain ⟨cj, hcj, hne⟩ := h1 j (List.mem_cons_self j rest)
    have hrest := ih (fun k hk => h1 k (List.mem_cons_of_mem _ hk))
    simp only [List.cons_append, tryStrats, hcj]
    rw [if_neg hne]
    refine ⟨hrest.1, ?_⟩
    simp [attemptIdxs_append, attemptIdxs_cons_try, attemptIdxs_cons_exec,
      attemptIdxs_cons_echo, attemptIdxs_nil, hrest.2]

theorem tryStrats_ok_false (aenv : ApplyEnv) (container repo_dir patch_file ptype : String)
    (l : List (Fin 7))
    (h : (tryStrats aenv container repo_dir patch_file ptype l).1 = Except.ok false) :
    ∀ j ∈ l, ∀ cj, aenv.stratRes j = Except.ok cj → cj ≠ 0 := by
  induction l with
  | nil => simp
  | cons i rest ih =>
    intro j hj cj hcj
    rcases List.mem_cons.mp hj with rfl | hj'
    · intro h0
      rw [h0] at hcj
      simp only [tryStrats, hcj] at h
      simp at h
    · cases hres : aenv.stratRes i with
      | error e => simp [tryStrats, hres] at h
      | ok ci =>
        simp only [tryStrats, hres] at h
        by_cases hz : ci = 0
        · rw [if_pos hz] at h
          simp at h
        · rw [if_neg hz] at h
          exact ih (by simpa using h) j hj' cj hcj

theorem finRange_split (i : Fin 7) :
    List.finRange 7 = (List.finRange 7).take i.1 ++ i :: (List.finRange 7).drop (i.1 + 1) := by
  have hlen : i.1 < (List.finRange 7).length := by
    rw [List.length_finRange]
    exact i.2
  conv_lhs => rw [← List.take_append_drop i.1 (List.finRange 7)]
  rw [List.drop_eq_getElem_cons hlen]
  congr 2
  have h := List.get_finRange (n := 7) (i := i.1) hlen
  rw [List.get_eq_getElem] at h
  rw [h]

theorem mem_take_finRange_lt (i j : Fin 7) (hj : j ∈ (List.finRange 7).take i.1) : j < i := by
  obtain ⟨k, hk, hgj⟩ := List.mem_iff_getElem.mp hj
  have hki : k < i.1 := by
    have := hk
    simp [List.length_take, List.length_finRange] at this
    omega
  have hk7 : k < (List.finRange 7).length := by
    rw [List.length_finRange]
    exact lt_of_lt_of_le hki (Nat.le_of_lt_succ (Nat.lt_succ_of_lt i.2))
  rw [List.getElem_take] at hgj
  have h := List.get_finRange (n := 7) (i := k) hk7
  rw [List.get_eq_getElem] at h
  rw [h] at hgj
  rw [← hgj]
  exact hki

/-- C4: confirmed.  With the patch file present (existence check exits 0)
and every strategy invocation returning an exit code, the applier tries the
seven strategies of the source in their fixed order: it succeeds at the
first strategy whose invocation exits zero, attempting exactly the
strategies up to and including it; it fails exactly when all seven were
attempted and each exited non-zero. -/
theorem patch_strategy_ladder
    (aenv : ApplyEnv) (container patch_file repo_dir ptype : String)
    (codes : Fin 7 → Int)
    (hres : ∀ j, aenv.stratRes j = Except.ok (codes j))
    (hchk : aenv.checkRes = Except.ok 0) :
    ((strategies repo_dir patch_file).map Strategy.name =
      ["git apply (robust)", "git apply (basic)", "git apply (ignore whitespace)",
       "patch -p1", "patch -p1 (fuzzy)", "patch -p0", "patch -p0 (fuzzy)"]) ∧
    (∀ i : Fin 7, codes i = 0 → (∀ j : Fin 7, j < i → codes j ≠ 0) →
      (apply_patch_robustly aenv container patch_file repo_dir ptype).1 = Except.ok true ∧
      attemptIdxs (apply_patch_robustly aenv container patch_file repo_dir ptype).2 =
        List.range (i.1 + 1)) ∧
    ((∀ j : Fin 7, codes j ≠ 0) →
      (apply_patch_robustly aenv container patch_file repo_dir ptype).1 = Except.ok false ∧
      attemptIdxs (apply_patch_robustly aenv container patch_file repo_dir ptype).2 =
        List.range 7) ∧
    ((apply_patch_robustly aenv container patch_file repo_dir ptype).1 = Except.ok false →
      ∀ j : Fin 7, codes j ≠ 0) := by
  have hred1 : (apply_patch_robustly aenv container patch_file repo_dir ptype).1 =
      (tryStrats aenv container repo_dir patch_file ptype (List.finRange 7)).1 := by
    simp [apply_patch_robustly, hchk]
  have hred2 : attemptIdxs (apply_patch_robustly aenv container patch_file repo_dir ptype).2 =
      attemptIdxs (tryStrats aenv container repo_dir patch_file ptype (List.finRange 7)).2 := by
    simp [apply_patch_robustly, hchk, attemptIdxs_append, attemptIdxs_cons_exec,
      attemptIdxs_cons_echo, attemptIdxs_nil]
  refine ⟨rfl, ?_, ?_, ?_⟩
  · intro i hi hmin
    have hfs := tryStrats_first_success aenv container repo_dir patch_file ptype
      ((List.finRange 7).take i.1) i ((List.finRange 7).drop (i.1 + 1))
      (fun j hj => ⟨codes j, hres j, hmin j (mem_take_finRange_lt i j hj)⟩)
      (hi ▸ hres i)
    rw [← finRange_split i] at hfs
    rw [hred1, hred2, hfs.1, hfs.2]
    refine ⟨rfl, ?_⟩
    have h7 : i.1 ≤ 7 := Nat.le_of_lt i.2
    rw [List.map_take, show (List.finRange 7).map Fin.val = List.range 7 from by decide,
      List.take_range, Nat.min_eq_left h7, ← List.range_succ]
  · intro hall
    have haf := tryStrats_all_fail aenv container repo_dir patch_file ptype (List.finRange 7)
      (fun j _ => ⟨codes j, hres j, hall j⟩)
    rw [hred1, hred2, haf.1, haf.2]
    refine ⟨rfl, ?_⟩
    decide
  · intro hfail j
    rw [hred1] at hfail
    exact fun h0 => tryStrats_ok_false aenv container repo_dir patch_file ptype _ hfail j
      (List.mem_finRange j) (codes j) (hres j) h0

def aenvAllFail : ApplyEnv := { checkRes := .ok 0, stratRes := fun _ => .ok 1 }

/-- C4 witness: with every strategy exiting 1 the applier reports failure
after exactly the seven attempts 0..6. -/
theorem patch_strategy_ladder_witness :
    (apply_patch_robustly aenvAllFail "c1" "/tmp/agent.patch" "/repo" "agent").1 =
      Except.ok false ∧
    attemptIdxs (apply_patch_robustly aenvAllFail "c1" "/tmp/agent.patch" "/repo" "agent").2 =
      List.range 7 :=
  (patch_strategy_ladder aenvAllFail "c1" "/tmp/agent.patch" "/repo" "agent"
    (fun _ => 1) (fun _ => rfl) rfl).2.2.1 (fun _ => by decide)

/-! ## Shape of the try-block trace -/

theorem tryStrats_isBody (aenv : ApplyEnv) (container repo_dir patch_file ptype : String)
    (l : List (Fin 7)) :
    ((tryStrats aenv container repo_dir patch_file ptype l).2).all Event.isBody = true := by
  induction l with
  | nil => rfl
  | cons i rest ih =>
    rcases hres : aenv.stratRes i with err | code
    · simp [tryStrats, hres, Event.isBody]
    · by_cases hz : code = 0
      · simp [tryStrats, hres, hz, Event.isBody]
      · simp [tryStrats, hres, hz, Event.isBody, ih]

theorem apply_patch_robustly_isBody (aenv : ApplyEnv)
    (container patch_file repo_dir ptype : String) :
    ((apply_patch_robustly aenv container patch_file repo_dir ptype).2).all
      Event.isBody = true := by
  rcases hchk : aenv.checkRes with err | c
  · simp [apply_patch_robustly, hchk, Event.isBody]
  · by_cases hz : c ≠ 0
    · simp [apply_patch_robustly, hchk, hz, Event.isBody]
    · simp [apply_patch_robustly, hchk, hz, Event.isBody,
        tryStrats_isBody aenv container repo_dir patch_file ptype (List.finRange 7)]

theorem body_run_tests_isBody (env : PEnv) (r : ResultRecord) (test_cmd : String) :
    ((body_run_tests env r test_cmd).2).all Event.isBody = true := by
  rcases h : env.testRunRes with e | ec <;> simp [body_run_tests, h, Event.isBody]

theorem body_test_patch_isBody (env : PEnv) (r : ResultRecord)
    (cname repo_dir test_cmd : String) :
    ((body_test_patch env r cname repo_dir test_cmd).2).all Event.isBody = true := by
  by_cases htp : env.testPatchExists
  · rcases htar : env.tarRes with e | tc
    · simp [body_test_patch, htp, htar, Event.isBody]
    · by_cases htc : tc ≠ 0
      · simp [body_test_patch, htp, htar, htc, Event.isBody]
      · rcases hfind : env.findRes with e | fc
        · simp [body_test_patch, htp, htar, htc, hfind, Event.isBody]
        · by_cases hfc : fc = 0
          · rcases hex : env.extractApplyRes with e | ac
            · simp [body_test_patch, htp, htar, htc, hfind, hfc, hex, Event.isBody]
            · by_cases hac : ac ≠ 0
              · simp [body_test_patch, htp, htar, htc, hfind, hfc, hex, hac, Event.isBody]
              · simp [body_test_patch, htp, htar, htc, hfind, hfc, hex, hac, Event.isBody,
                  body_run_tests_isBody]
          · simp [body_test_patch, htp, htar, htc, hfind, hfc, Event.isBody,
              body_run_tests_isBody]
  · simp [body_test_patch, htp, body_run_tests_isBody]

theorem body_apply_agent_isBody (env : PEnv) (r : ResultRecord)
    (cname repo_dir test_cmd : String) :
    ((body_apply_agent env r cname repo_dir test_cmd).2).all Event.isBody = true := by
  by_cases hag : env.agentPatchExists
  · rcases hap : (apply_patch_robustly env.agentApply cname "/tmp/agent.patch"
        repo_dir "agent").1 with e | ok
    · simpa [body_apply_agent, hag, hap] using
        apply_patch_robustly_isBody env.agentApply cname "/tmp/agent.patch" repo_dir "agent"
    · by_cases hok : ok
      · simp [body_apply_agent, hag, hap, hok, body_test_patch_isBody,
          apply_patch_robustly_isBody env.agentApply cname "/tmp/agent.patch" repo_dir "agent"]
      · simpa [body_apply_agent, hag, hap, hok] using
          apply_patch_robustly_isBody env.agentApply cname "/tmp/agent.patch" repo_dir "agent"
  · simp [body_apply_agent, hag, body_test_patch_isBody]

theorem body_copy_test_isBody (env : PEnv) (r : ResultRecord)
    (cname repo_dir test_cmd : String) :
    ((body_copy_test env r cname repo_dir test_cmd).2).all Event.isBody = true := by
  by_cases htp : env.testPatchExists
  · rcases hcp : env.cpTestRes with e | c
    · simp [body_copy_test, htp, hcp, Event.isBody]
    · by_cases hc : c ≠ 0
      · simp [body_copy_test, htp, hcp, hc, Event.isBody]
      · simp [body_copy_test, htp, hcp, hc, Event.isBody, body_apply_agent_isBody]
  · simp [body_copy_test, htp, Event.isBody, body_apply_agent_isBody]

theorem taskBody_isBody (env : PEnv) (r : ResultRecord)
    (cname repo_dir test_cmd : String) :
    ((taskBody env r cname repo_dir test_cmd).2).all Event.isBody = true := by
  by_cases hag : env.agentPatchExists
  · rcases hcp : env.cpAgentRes with e | c
    · simp [taskBody, hag, hcp, Event.isBody]
    · by_cases hc : c ≠ 0
      · simp [taskBody, hag, hcp, hc, Event.isBody]
      · simp [taskBody, hag, hcp, hc, Event.isBody, body_copy_test_isBody]
  · simp [taskBody, hag, Event.isBody, body_copy_test_isBody]

/-! ## Behaviour of the try-block -/

theorem body_run_tests_spec (env : PEnv) (r0 : ResultRecord) (test_cmd : String)
    (b : Bool) (r : ResultRecord)
    (h : (body_run_tests env r0 test_cmd).1 = Except.ok (b, r)) :
    (b = true → r.skipped = r0.skipped ∧
      Event.runTest test_cmd ∈ (body_run_tests env r0 test_cmd).2 ∧
      ∃ c, env.testRunRes = Except.ok c ∧ r.test_exit_code = some c ∧
        r.test_ok = decide (c = 0)) ∧
    (b = false → r.skipped = true ∧ r.test_exit_code = r0.test_exit_code ∧
      r.test_ok = r0.test_ok ∧
      ∀ cmd, Event.runTest cmd ∉ (body_run_tests env r0 test_cmd).2) := by
  rcases hr : env.testRunRes with e | ec
  · simp [body_run_tests, hr] at h
  · simp only [body_run_tests, hr, Except.ok.injEq, Prod.mk.injEq] at h
    obtain ⟨hb, hrec⟩ := h
    subst hb
    subst hrec
    refine ⟨fun _ => ⟨rfl, ?_, ec, rfl, rfl, rfl⟩, fun hfalse => by simp at hfalse⟩
    simp [body_run_tests, hr]

/-! ## Exactly one record and the skip invariant (C3) -/

/-- Whether an external call returned normally (did not raise). -/
def exOk {α : Type} : Except Unit α → Bool
  | .ok _ => true
  | .error _ => false

/-- No external call of this task's processing raises an exception. -/
def PEnv.noRaise (env : PEnv) : Bool :=
  exOk env.readTestCmd && exOk env.buildRes && exOk env.inspectRes && exOk env.startRes &&
  exOk env.cpAgentRes && exOk env.cpTestRes && exOk env.agentApply.checkRes &&
  ((List.finRange 7).all fun i => exOk (env.agentApply.stratRes i)) &&
  exOk env.tarRes && exOk env.findRes && exOk env.extractApplyRes &&
  exOk env.testRunRes && exOk env.stopRes

theorem exOk_exists {α : Type} (x : Except Unit α) (h : exOk x = true) :
    ∃ v, x = Except.ok v := by
  cases x with
  | error e => simp [exOk] at h
  | ok v => exact ⟨v, rfl⟩

theorem tryStrats_ok (aenv : ApplyEnv) (container repo_dir patch_file ptype : String)
    (l : List (Fin 7)) (h : ∀ j ∈ l, exOk (aenv.stratRes j) = true) :
    exOk (tryStrats aenv container repo_dir patch_file ptype l).1 = true := by
  induction l with
  | nil => rfl
  | cons i rest ih =>
    rcases hres : aenv.stratRes i with e | code
    · have := h i (List.mem_cons_self i rest)
      rw [hres] at this
      simp [exOk] at this
    · by_cases hz : code = 0
      · simp [tryStrats, hres, hz, exOk]
      · simp [tryStrats, hres, hz, ih (fun j hj => h j (List.mem_cons_of_mem _ hj))]

theorem apply_patch_robustly_ok (aenv : ApplyEnv)
    (container patch_file repo_dir ptype : String)
    (h1 : exOk aenv.checkRes = true) (h2 : ∀ j, exOk (aenv.stratRes j) = true) :
    exOk (apply_patch_robustly aenv container patch_file repo_dir ptype).1 = true := by
  rcases hchk : aenv.checkRes with e | c
  · rw [hchk] at h1
    simp [exOk] at h1
  · by_cases hz : c ≠ 0
    · simp [apply_patch_robustly, hchk, hz, exOk]
    · simp [apply_patch_robustly, hchk, hz,
        tryStrats_ok aenv container repo_dir patch_file ptype (List.finRange 7)
          (fun j _ => h2 j)]

theorem body_run_tests_ok (env : PEnv) (r : ResultRecord) (test_cmd : String)
    (h : exOk env.testRunRes = true) :
    exOk (body_run_tests env r test_cmd).1 = true := by
  rcases hr : env.testRunRes with e | ec
  · rw [hr] at h
    simp [exOk] at h
  · simp [body_run_tests, hr, exOk]

theorem body_test_patch_ok (env : PEnv) (r : ResultRecord)
    (cname repo_dir test_cmd : String)
    (htar : exOk env.tarRes = true) (hfind : exOk env.findRes = true)
    (hex : exOk env.extractApplyRes = true) (hrun : exOk env.testRunRes = true) :
    exOk (body_test_patch env r cname repo_dir test_cmd).1 = true := by
  by_cases htp : env.testPatchExists
  · rcases h1 : env.tarRes with e | tc
    · rw [h1] at htar
      simp [exOk] at htar
    · by_cases htc : tc ≠ 0
      · simp [body_test_patch, htp, h1, htc, exOk]
      · rcases h2 : env.findRes with e | fc
        · rw [h2] at hfind
          simp [exOk] at hfind
        · by_cases hfc : fc = 0
          · rcases h3 : env.extractApplyRes with e | ac
            · rw [h3] at hex
              simp [exOk] at hex
            · by_cases hac : ac ≠ 0
              · simp [body_test_patch, htp, h1, htc, h2, hfc, h3, hac, exOk]
              · simp [body_test_patch, htp, h1, htc, h2, hfc, h3, hac,
                  body_run_tests_ok env _ test_cmd hrun]
          · simp [body_test_patch, htp, h1, htc, h2, hfc,
              body_run_tests_ok env _ test_cmd hrun]
  · simp [body_test_patch, htp, body_run_tests_ok env _ test_cmd hrun]

theorem body_apply_agent_ok (env : PEnv) (r : ResultRecord)
    (cname repo_dir test_cmd : String)
    (hchk : exOk env.agentApply.checkRes = true)
    (hstr : ∀ j, exOk (env.agentApply.stratRes j) = true)
    (htar : exOk env.tarRes = true) (hfind : exOk env.findRes = true)
    (hex : exOk env.extractApplyRes = true) (hrun : exOk env.testRunRes = true) :
    exOk (body_apply_agent env r cname repo_dir test_cmd).1 = true := by
  by_cases hag : env.agentPatchExists
  · obtain ⟨v, hv⟩ := exOk_exists _ (apply_patch_robustly_ok env.agentApply cname
      "/tmp/agent.patch" repo_dir "agent" hchk hstr)
    cases v with
    | true =>
      simp [body_apply_agent, hag, hv,
        body_test_patch_ok env { r with agent_patch_ok := true } cname repo_dir test_cmd
          htar hfind hex hrun]
    | false => simp [body_apply_agent, hag, hv, exOk]
  · simp [body_apply_agent, hag,
      body_test_patch_ok env { r with agent_patch_ok := true } cname repo_dir test_cmd
        htar hfind hex hrun]

theorem body_copy_test_ok (env : PEnv) (r : ResultRecord)
    (cname repo_dir test_cmd : String)
    (hcp : exOk env.cpTestRes = true)
    (hchk : exOk env.agentApply.checkRes = true)
    (hstr : ∀ j, exOk (env.agentApply.stratRes j) = true)
    (htar : exOk env.tarRes = true) (hfind : exOk env.findRes = true)
    (hex : exOk env.extractApplyRes = true) (hrun : exOk env.testRunRes = true) :
    exOk (body_copy_test env r cname repo_dir test_cmd).1 = true := by
  by_cases htp : env.testPatchExists
  · rcases h1 : env.cpTestRes with e | c
    · rw [h1] at hcp
      simp [exOk] at hcp
    · by_cases hc : c ≠ 0
      · simp [body_copy_test, htp, h1, hc, exOk]
      · simp [body_copy_test, htp, h1, hc,
          body_apply_agent_ok env r cname repo_dir test_cmd hchk hstr htar hfind hex hrun]
  · simp [body_copy_test, htp,
      body_apply_agent_ok env r cname repo_dir test_cmd hchk hstr htar hfind hex hrun]

theorem taskBody_ok (env : PEnv) (r : ResultRecord) (cname repo_dir test_cmd : String)
    (hcpA : exOk env.cpAgentRes = true) (hcp : exOk env.cpTestRes = true)
    (hchk : exOk env.agentApply.checkRes = true)
    (hstr : ∀ j, exOk (env.agentApply.stratRes j) = true)
    (htar : exOk env.tarRes = true) (hfind : exOk env.findRes = true)
    (hex : exOk env.extractApplyRes = true) (hrun : exOk env.testRunRes = true) :
    exOk (taskBody env r cname repo_dir test_cmd).1 = true := by
  by_cases hag : env.agentPatchExists
  · rcases h1 : env.cpAgentRes with e | c
    · rw [h1] at hcpA
      simp [exOk] at hcpA
    · by_cases hc : c ≠ 0
      · simp [taskBody, hag, h1, hc, exOk]
      · simp [taskBody, hag, h1, hc,
          body_copy_test_ok env r cname repo_dir test_cmd hcp hchk hstr htar hfind hex hrun]
  · simp [taskBody, hag,
      body_copy_test_ok env r cname repo_dir test_cmd hcp hchk hstr htar hfind hex hrun]

theorem body_test_patch_spec (env : PEnv) (r0 : ResultRecord)
    (cname repo_dir test_cmd : String) (b : Bool) (r : ResultRecord)
    (h : (body_test_patch env r0 cname repo_dir test_cmd).1 = Except.ok (b, r)) :
    (b = true → r.skipped = r0.skipped ∧
      Event.runTest test_cmd ∈ (body_test_patch env r0 cname repo_dir test_cmd).2 ∧
      ∃ c, env.testRunRes = Except.ok c ∧ r.test_exit_code = some c ∧
        r.test_ok = decide (c = 0)) ∧
    (b = false → r.skipped = true ∧ r.test_exit_code = r0.test_exit_code ∧
      r.test_ok = r0.test_ok ∧
      ∀ cmd, Event.runTest cmd ∉ (body_test_patch env r0 cname repo_dir test_cmd).2) := by
  by_cases htp : env.testPatchExists
  · rcases htar : env.tarRes with e | tc
    · simp [body_test_patch, htp, htar] at h
    · by_cases htc : tc ≠ 0
      · simp [body_test_patch, htp, htar, htc] at h
        obtain ⟨hb, hrec⟩ := h
        subst hb
        subst hrec
        refine ⟨fun htrue => by simp at htrue, fun _ => ⟨rfl, rfl, rfl, ?_⟩⟩
        simp [body_test_patch, htp, htar, htc]
      · rcases hfind : env.findRes with e | fc
        · simp [body_test_patch, htp, htar, htc, hfind] at h
        · by_cases hfc : fc = 0
          · rcases hex : env.extractApplyRes with e | ac
            · simp [body_test_patch, htp, htar, htc, hfind, hfc, hex] at h
            · by_cases hac : ac ≠ 0
              · simp [body_test_patch, htp, htar, htc, hfind, hfc, hex, hac] at h
                obtain ⟨hb, hrec⟩ := h
                subst hb
                subst hrec
                refine ⟨fun htrue => by simp at htrue, fun _ => ⟨rfl, rfl, rfl, ?_⟩⟩
                simp [body_test_patch, htp, htar, htc, hfind, hfc, hex, hac]
              · have h' : (body_run_tests env { r0 with test_patch_ok := decide (ac = 0) }
                    test_cmd).1 = Except.ok (b, r) := by
                  simpa [body_test_patch, htp, htar, htc, hfind, hfc, hex, hac] using h
                have hs := body_run_tests_spec env _ test_cmd b r h'
                have htr : (body_test_patch env r0 cname repo_dir test_cmd).2 =
                    ([Event.exec cname (tarCmd repo_dir)] ++
                      [Event.exec cname (patchCheckCmd repo_dir)] ++
                      [Event.exec cname (applyExtractedCmd repo_dir)]) ++
                    (body_run_tests env { r0 with test_patch_ok := decide (ac = 0) }
                      test_cmd).2 := by
                  simp [body_test_patch, htp, htar, htc, hfind, hfc, hex, hac]
                constructor
                · intro hb
                  obtain ⟨h1, h2, c, h3, h4, h5⟩ := hs.1 hb
                  refine ⟨by simpa using h1, ?_, c, h3, h4, h5⟩
                  rw [htr]
                  exact List.mem_append_right _ h2
                · intro hb
                  obtain ⟨h1, h2, h3, h4⟩ := hs.2 hb
                  refine ⟨h1, by simpa using h2, by simpa using h3, ?_⟩
                  intro cmd
                  rw [htr]
                  simp only [List.mem_append, List.mem_singleton]
                  rintro ((h5 | h5 | h5) | h5) <;> first
                    | exact Event.noConfusion h5
                    | exact h4 cmd h5
                    | simp at h5
          · have h' : (body_run_tests env { r0 with test_patch_ok := true }
                test_cmd).1 = Except.ok (b, r) := by
              simpa [body_test_patch, htp, htar, htc, hfind, hfc] using h
            have hs := body_run_tests_spec env _ test_cmd b r h'
            have htr : (body_test_patch env r0 cname repo_dir test_cmd).2 =
                ([Event.exec cname (tarCmd repo_dir)] ++
                  [Event.exec cname (patchCheckCmd repo_dir)]) ++
                (body_run_tests env { r0 with test_patch_ok := true } test_cmd).2 := by
              simp [body_test_patch, htp, htar, htc, hfind, hfc]
            constructor
            · intro hb
              obtain ⟨h1, h2, c, h3, h4, h5⟩ := hs.1 hb
              refine ⟨by simpa using h1, ?_, c, h3, h4, h5⟩
              rw [htr]
              exact List.mem_append_right _ h2
            · intro hb
              obtain ⟨h1, h2, h3, h4⟩ := hs.2 hb
              refine ⟨h1, by simpa using h2, by simpa using h3, ?_⟩
              intro cmd
              rw [htr]
              simp only [List.mem_append, List.mem_singleton]
              rintro ((h5 | h5) | h5) <;> first
                | exact Event.noConfusion h5
                | exact h4 cmd h5
                | simp at h5
  · have h' : (body_run_tests env { r0 with test_patch_ok := true }
        test_cmd).1 = Except.ok (b, r) := by
      simpa [body_test_patch, htp] using h
    have hs := body_run_tests_spec env _ test_cmd b r h'
    have htr : (body_test_patch env r0 cname repo_dir test_cmd).2 =
        (body_run_tests env { r0 with test_patch_ok := true } test_cmd).2 := by
      simp [body_test_patch, htp]
    constructor
    · intro hb
      obtain ⟨h1, h2, c, h3, h4, h5⟩ := hs.1 hb
      refine ⟨by simpa using h1, ?_, c, h3, h4, h5⟩
      rw [htr]
      exact h2
    · intro hb
      obtain ⟨h1, h2, h3, h4⟩ := hs.2 hb
      refine ⟨h1, by simpa using h2, by simpa using h3, ?_⟩
      intro cmd
      rw [htr]
      exact h4 cmd

/-- Events the Patch Applier can emit: log lines, strategy attempts and
`docker exec` calls only. -/
def Event.isApplyStep : Event → Bool
  | .echo _ => true
  | .tryStrategy _ _ _ => true
  | .exec _ _ => true
  | _ => false

theorem tryStrats_isApplyStep (aenv : ApplyEnv) (container repo_dir patch_file ptype : String)
    (l : List (Fin 7)) :
    ((tryStrats aenv container repo_dir patch_file ptype l).2).all Event.isApplyStep = true := by
  induction l with
  | nil => rfl
  | cons i rest ih =>
    rcases hres : aenv.stratRes i with err | code
    · simp [tryStrats, hres, Event.isApplyStep]
    · by_cases hz : code = 0
      · simp [tryStrats, hres, hz, Event.isApplyStep]
      · simp [tryStrats, hres, hz, Event.isApplyStep, ih]

theorem apply_patch_robustly_isApplyStep (aenv : ApplyEnv)
    (container patch_file repo_dir ptype : String) :
    ((apply_patch_robustly aenv container patch_file repo_dir ptype).2).all
      Event.isApplyStep = true := by
  rcases hchk : aenv.checkRes with err | c
  · simp [apply_patch_robustly, hchk, Event.isApplyStep]
  · by_cases hz : c ≠ 0
    · simp [apply_patch_robustly, hchk, hz, Event.isApplyStep]
    · simp [apply_patch_robustly, hchk, hz, Event.isApplyStep,
        tryStrats_isApplyStep aenv container repo_dir patch_file ptype (List.finRange 7)]

theorem no_runTest_of_isApplyStep (tr : List Event)
    (h : tr.all Event.isApplyStep = true) : ∀ cmd, Event.runTest cmd ∉ tr := by
  intro cmd hmem
  have := List.all_eq_true.mp h _ hmem
  simp [Event.isApplyStep] at this

theorem body_apply_agent_spec (env : PEnv) (r0 : ResultRecord)
    (cname repo_dir test_cmd : String) (b : Bool) (r : ResultRecord)
    (h : (body_apply_agent env r0 cname repo_dir test_cmd).1 = Except.ok (b, r)) :
    (b = true → r.skipped = r0.skipped ∧
      Event.runTest test_cmd ∈ (body_apply_agent env r0 cname repo_dir test_cmd).2 ∧
      ∃ c, env.testRunRes = Except.ok c ∧ r.test_exit_code = some c ∧
        r.test_ok = decide (c = 0)) ∧
    (b = false → r.skipped = true ∧ r.test_exit_code = r0.test_exit_code ∧
      r.test_ok = r0.test_ok ∧
      ∀ cmd, Event.runTest cmd ∉ (body_apply_agent env r0 cname repo_dir test_cmd).2) := by
  by_cases hag : env.agentPatchExists
  · rcases hap : (apply_patch_robustly env.agentApply cname "/tmp/agent.patch"
        repo_dir "agent").1 with e | ok
    · simp [body_apply_agent, hag, hap] at h
    · cases ok with
      | true =>
        have h' : (body_test_patch env { r0 with agent_patch_ok := true }
            cname repo_dir test_cmd).1 = Except.ok (b, r) := by
          simpa [body_apply_agent, hag, hap] using h
        have hs := body_test_patch_spec env _ cname repo_dir test_cmd b r h'
        have htr : (body_apply_agent env r0 cname repo_dir test_cmd).2 =
            (apply_patch_robustly env.agentApply cname "/tmp/agent.patch" repo_dir "agent").2 ++
            (body_test_patch env { r0 with agent_patch_ok := true }
              cname repo_dir test_cmd).2 := by
          simp [body_apply_agent, hag, hap]
        constructor
        · intro hb
          obtain ⟨h1, h2, c, h3, h4, h5⟩ := hs.1 hb
          refine ⟨by simpa using h1, ?_, c, h3, h4, h5⟩
          rw [htr]
          exact List.mem_append_right _ h2
        · intro hb
          obtain ⟨h1, h2, h3, h4⟩ := hs.2 hb
          refine ⟨h1, by simpa using h2, by simpa using h3, ?_⟩
          intro cmd
          rw [htr]
          simp only [List.mem_append]
          rintro (h5 | h5)
          · exact no_runTest_of_isApplyStep _
              (apply_patch_robustly_isApplyStep env.agentApply cname "/tmp/agent.patch"
                repo_dir "agent") cmd h5
          · exact h4 cmd h5
      | false =>
        simp [body_apply_agent, hag, hap] at h
        obtain ⟨hb, hrec⟩ := h
        subst hb
        subst hrec
        refine ⟨fun htrue => by simp at htrue, fun _ => ⟨rfl, rfl, rfl, ?_⟩⟩
        intro cmd
        have htr : (body_apply_agent env r0 cname repo_dir test_cmd).2 =
            (apply_patch_robustly env.agentApply cname "/tmp/agent.patch"
              repo_dir "agent").2 := by
          simp [body_apply_agent, hag, hap]
        rw [htr]
        exact no_runTest_of_isApplyStep _
          (apply_patch_robustly_isApplyStep env.agentApply cname "/tmp/agent.patch"
            repo_dir "agent") cmd
  · have h' : (body_test_patch env { r0 with agent_patch_ok := true }
        cname repo_dir test_cmd).1 = Except.ok (b, r) := by
      simpa [body_apply_agent, hag] using h
    have hs := body_test_patch_spec env _ cname repo_dir test_cmd b r h'
    have htr : (body_apply_agent env r0 cname repo_dir test_cmd).2 =
        (body_test_patch env { r0 with agent_patch_ok := true }
          cname repo_dir test_cmd).2 := by
      simp [body_apply_agent, hag]
    constructor
    · intro hb
      obtain ⟨h1, h2, c, h3, h4, h5⟩ := hs.1 hb
      refine ⟨by simpa using h1, ?_, c, h3, h4, h5⟩
      rw [htr]
      exact h2
    · intro hb
      obtain ⟨h1, h2, h3, h4⟩ := hs.2 hb
      refine ⟨h1, by simpa using h2, by simpa using h3, ?_⟩
      intro cmd
      rw [htr]
      exact h4 cmd

theorem body_copy_test_spec (env : PEnv) (r0 : ResultRecord)
    (cname repo_dir test_cmd : String) (b : Bool) (r : ResultRecord)
    (h : (body_copy_test env r0 cname repo_dir test_cmd).1 = Except.ok (b, r)) :
    (b = true → r.skipped = r0.skipped ∧
      Event.runTest test_cmd ∈ (body_copy_test env r0 cname repo_dir test_cmd).2 ∧
      ∃ c, env.testRunRes = Except.ok c ∧ r.test_exit_code = some c ∧
        r.test_ok = decide (c = 0)) ∧
    (b = false → r.skipped = true ∧ r.test_exit_code = r0.test_exit_code ∧
      r.test_ok = r0.test_ok ∧
      ∀ cmd, Event.runTest cmd ∉ (body_copy_test env r0 cname repo_dir test_cmd).2) := by
  by_cases htp : env.testPatchExists
  · rcases hcp : env.cpTestRes with e | c
    · simp [body_copy_test, htp, hcp] at h
    · by_cases hc : c ≠ 0
      · simp [body_copy_test, htp, hcp, hc] at h
        obtain ⟨hb, hrec⟩ := h
        subst hb
        subst hrec
        refine ⟨fun htrue => by simp at htrue, fun _ => ⟨rfl, rfl, rfl, ?_⟩⟩
        simp [body_copy_test, htp, hcp, hc]
      · have h' : (body_apply_agent env r0 cname repo_dir test_cmd).1 =
            Except.ok (b, r) := by
          simpa [body_copy_test, htp, hcp, hc] using h
        have hs := body_apply_agent_spec env r0 cname repo_dir test_cmd b r h'
        have htr : (body_copy_test env r0 cname repo_dir test_cmd).2 =
            [Event.cp "/tmp/test_patch.tar"] ++
            (body_apply_agent env r0 cname repo_dir test_cmd).2 := by
          simp [body_copy_test, htp, hcp, hc]
        constructor
        · intro hb
          obtain ⟨h1, h2, c2, h3, h4, h5⟩ := hs.1 hb
          refine ⟨h1, ?_, c2, h3, h4, h5⟩
          rw [htr]
          exact List.mem_append_right _ h2
        · intro hb
          obtain ⟨h1, h2, h3, h4⟩ := hs.2 hb
          refine ⟨h1, h2, h3, ?_⟩
          intro cmd
          rw [htr]
          simp only [List.mem_append, List.mem_singleton]
          rintro (h5 | h5)
          · exact Event.noConfusion h5
          · exact h4 cmd h5
  · have h' : (body_apply_agent env r0 cname repo_dir test_cmd).1 = Except.ok (b, r) := by
      simpa [body_copy_test, htp] using h
    have hs := body_apply_agent_spec env r0 cname repo_dir test_cmd b r h'
    have htr : (body_copy_test env r0 cname repo_dir test_cmd).2 =
        Event.echo "NOTE: No test_patch.tar" ::
        (body_apply_agent env r0 cname repo_dir test_cmd).2 := by
      simp [body_copy_test, htp]
    constructor
    · intro hb
      obtain ⟨h1, h2, c2, h3, h4, h5⟩ := hs.1 hb
      refine ⟨h1, ?_, c2, h3, h4, h5⟩
      rw [htr]
      exact List.mem_cons_of_mem _ h2
    · intro hb
      obtain ⟨h1, h2, h3, h4⟩ := hs.2 hb
      refine ⟨h1, h2, h3, ?_⟩
      intro cmd
      rw [htr]
      simp only [List.mem_cons]
      rintro (h5 | h5)
      · exact Event.noConfusion h5
      · exact h4 cmd h5

theorem taskBody_spec (env : PEnv) (r0 : ResultRecord)
    (cname repo_dir test_cmd : String) (b : Bool) (r : ResultRecord)
    (h : (taskBody env r0 cname repo_dir test_cmd).1 = Except.ok (b, r)) :
    (b = true → r.skipped = r0.skipped ∧
      Event.runTest test_cmd ∈ (taskBody env r0 cname repo_dir test_cmd).2 ∧
      ∃ c, env.testRunRes = Except.ok c ∧ r.test_exit_code = some c ∧
        r.test_ok = decide (c = 0)) ∧
    (b = false → r.skipped = true ∧ r.test_exit_code = r0.test_exit_code ∧
      r.test_ok = r0.test_ok ∧
      ∀ cmd, Event.runTest cmd ∉ (taskBody env r0 cname repo_dir test_cmd).2) := by
  by_cases hag : env.agentPatchExists
  · rcases hcp : env.cpAgentRes with e | c
    · simp [taskBody, hag, hcp] at h
    · by_cases hc : c ≠ 0
      · simp [taskBody, hag, hcp, hc] at h
        obtain ⟨hb, hrec⟩ := h
        subst hb
        subst hrec
        refine ⟨fun htrue => by simp at htrue, fun _ => ⟨rfl, rfl, rfl, ?_⟩⟩
        simp [taskBody, hag, hcp, hc]
      · have h' : (body_copy_test env r0 cname repo_dir test_cmd).1 =
            Except.ok (b, r) := by
          simpa [taskBody, hag, hcp, hc] using h
        have hs := body_copy_test_spec env r0 cname repo_dir test_cmd b r h'
        have htr : (taskBody env r0 cname repo_dir test_cmd).2 =
            [Event.cp "/tmp/agent.patch"] ++
            (body_copy_test env r0 cname repo_dir test_cmd).2 := by
          simp [taskBody, hag, hcp, hc]
        constructor
        · intro hb
          obtain ⟨h1, h2, c2, h3, h4, h5⟩ := hs.1 hb
          refine ⟨h1, ?_, c2, h3, h4, h5⟩
          rw [htr]
          exact List.mem_append_right _ h2
        · intro hb
          obtain ⟨h1, h2, h3, h4⟩ := hs.2 hb
          refine ⟨h1, h2, h3, ?_⟩
          intro cmd
          rw [htr]
          simp only [List.mem_append, List.mem_singleton]
          rintro (h5 | h5)
          · exact Event.noConfusion h5
          · exact h4 cmd h5
  · have h' : (body_copy_test env r0 cname repo_dir test_cmd).1 = Except.ok (b, r) := by
      simpa [taskBody, hag] using h
    have hs := body_copy_test_spec env r0 cname repo_dir test_cmd b r h'
    have htr : (taskBody env r0 cname repo_dir test_cmd).2 =
        Event.echo "NOTE: Missing agent patch" ::
        (body_copy_test env r0 cname repo_dir test_cmd).2 := by
      simp [taskBody, hag]
    constructor
    · intro hb
      obtain ⟨h1, h2, c2, h3, h4, h5⟩ := hs.1 hb
      refine ⟨h1, ?_, c2, h3, h4, h5⟩
      rw [htr]
      exact List.mem_cons_of_mem _ h2
    · intro hb
      obtain ⟨h1, h2, h3, h4⟩ := hs.2 hb
      refine ⟨h1, h2, h3, ?_⟩
      intro cmd
      rw [htr]
      simp only [List.mem_cons]
      rintro (h5 | h5)
      · exact Event.noConfusion h5
      · exact h4 cmd h5

/-! ## Container teardown (C1) -/

theorem taskBody_no_start (env : PEnv) (rr : ResultRecord) (cname repo_dir test_cmd : String) :
    ∀ n, Event.start n ∉ (taskBody env rr cname repo_dir test_cmd).2 := by
  intro n hmem
  have := List.all_eq_true.mp (taskBody_isBody env rr cname repo_dir test_cmd) _ hmem
  simp [Event.isBody] at this

theorem taskBody_no_stopRm (env : PEnv) (rr : ResultRecord) (cname repo_dir test_cmd : String) :
    ∀ n, Event.stopRm n ∉ (taskBody env rr cname repo_dir test_cmd).2 := by
  intro n hmem
  have := List.all_eq_true.mp (taskBody_isBody env rr cname repo_dir test_cmd) _ hmem
  simp [Event.isBody] at this

theorem taskBody_no_writeResult (env : PEnv) (rr : ResultRecord)
    (cname repo_dir test_cmd : String) :
    Event.writeResult ∉ (taskBody env rr cname repo_dir test_cmd).2 := by
  intro hmem
  have := List.all_eq_true.mp (taskBody_isBody env rr cname repo_dir test_cmd) _ hmem
  simp [Event.isBody] at this

/-- C1: confirmed.  Whenever `start_container` was invoked and returned 0
(the container was started), the trace of `process_task` also contains the
`stop_rm_container` invocation for that same container name — on the normal
path, on every early `return` inside the `try` block, and when an exception
escapes any step, because teardown sits in the `finally` block. -/
theorem container_always_torn_down (env : PEnv) (tid default_repo_dir nm : String)
    (hstart : env.startRes = Except.ok 0)
    (hmem : Event.start nm ∈ (processTask env tid default_repo_dir).2) :
    Event.stopRm nm ∈ (processTask env tid default_repo_dir).2 := by
  by_cases hd : env.dockerfileExists = false
  · simp [processTask, hd] at hmem
  · by_cases ht : env.testCmdFileExists = false
    · simp [processTask, hd, ht] at hmem
    · rcases hread : env.readTestCmd with e | raw
      · simp [processTask, hd, ht, hread] at hmem
      · by_cases hemp : pyStrip raw = ""
        · simp [processTask, hd, ht, hread, hemp] at hmem
        · rcases hbuild : env.buildRes with e | bc
          · simp [processTask, hd, ht, hread, hemp, hbuild] at hmem
          · by_cases hbc : bc ≠ 0
            · simp [processTask, hd, ht, hread, hemp, hbuild, hbc] at hmem
            · rcases hins : env.inspectRes with e | out
              · simp [processTask, hd, ht, hread, hemp, hbuild, hbc, hins] at hmem
              · have hnm : nm = unique_container_name tid env.nameSuffix := by
                  rcases hstop : env.stopRes with e | u
                  · simp [processTask, hd, ht, hread, hemp, hbuild, hbc, hins, hstart,
                      hstop] at hmem
                    rcases hmem with h5 | h5
                    · exact h5
                    · exact absurd h5 (taskBody_no_start env _ _ _ _ nm)
                  · rcases hbo : (taskBody env
                        { initialResult tid env.logsDir with
                            build_ok := decide (bc = 0),
                            repo_dir := some (resolve_repo_dir out env.dockerfileText
                              default_repo_dir) }
                        (unique_container_name tid env.nameSuffix)
                        (resolve_repo_dir out env.dockerfileText default_repo_dir)
                        (pyStrip raw)).1 with e | fr
                    · simp [processTask, hd, ht, hread, hemp, hbuild, hbc, hins, hstart,
                        hstop, hbo] at hmem
                      rcases hmem with h5 | h5
                      · exact h5
                      · exact absurd h5 (taskBody_no_start env _ _ _ _ nm)
                    · by_cases hfr : fr.1
                      · simp [processTask, hd, ht, hread, hemp, hbuild, hbc, hins, hstart,
                          hstop, hbo, hfr] at hmem
                        rcases hmem with h5 | h5
                        · exact h5
                        · exact absurd h5 (taskBody_no_start env _ _ _ _ nm)
                      · simp [processTask, hd, ht, hread, hemp, hbuild, hbc, hins, hstart,
                          hstop, hbo, hfr] at hmem
                        rcases hmem with h5 | h5
                        · exact h5
                        · exact absurd h5 (taskBody_no_start env _ _ _ _ nm)
                subst hnm
                rcases hstop : env.stopRes with e | u
                · simp [processTask, hd, ht, hread, hemp, hbuild, hbc, hins, hstart, hstop]
                · rcases hbo : (taskBody env
                      { initialResult tid env.logsDir with
                          build_ok := decide (bc = 0),
                          repo_dir := some (resolve_repo_dir out env.dockerfileText
                            default_repo_dir) }
                      (unique_container_name tid env.nameSuffix)
                      (resolve_repo_dir out env.dockerfileText default_repo_dir)
                      (pyStrip raw)).1 with e | fr
                  · simp [processTask, hd, ht, hread, hemp, hbuild, hbc, hins, hstart,
                      hstop, hbo]
                  · by_cases hfr : fr.1
                    · simp [processTask, hd, ht, hread, hemp, hbuild, hbc, hins, hstart,
                        hstop, hbo, hfr]
                    · simp [processTask, hd, ht, hread, hemp, hbuild, hbc, hins, hstart,
                        hstop, hbo, hfr]

/-- A fully benign task environment: all files present, no patches, build,
start, test and teardown all succeed with exit code 0. -/
def envBase : PEnv :=
  { logsDir := "tests/task_id_1",
    dockerfileExists := true,
    testCmdFileExists := true,
    readTestCmd := .ok "true\n",
    buildRes := .ok 0,
    inspectRes := .ok "/repo\n",
    dockerfileText := none,
    nameSuffix := "abc12345",
    startRes := .ok 0,
    agentPatchExists := false,
    cpAgentRes := .ok 0,
    testPatchExists := false,
    cpTestRes := .ok 0,
    agentApply := { checkRes := .ok 0, stratRes := fun _ => .ok 0 },
    tarRes := .ok 0,
    findRes := .ok 0,
    extractApplyRes := .ok 0,
    testRunRes := .ok 0,
    stopRes := .ok 0 }

/-- C1 witness: on the benign environment the started container
`task1_runner_abc12345` is removed. -/
theorem container_always_torn_down_witness :
    Event.stopRm "task1_runner_abc12345" ∈ (processTask envBase "1" "/app").2 :=
  container_always_torn_down envBase "1" "/app" "task1_runner_abc12345" rfl (by decide)

/-! ## result.json persistence (C2) -/

/-- C2: corrected.  `result.json` is written if and only if the task
completed the test stage (the returned record carries a test exit code);
when it is written, it is written exactly once, as the final action, after
the container teardown.  Tasks that end in a precondition failure, a build
failure, a start failure, a skip (copy/extract/patch failure) or an
exception write no `result.json` at all — the early `return result`
statements of the source leave step 9 unreached. -/
theorem result_json_write_spec (env : PEnv) (tid default_repo_dir : String) :
    (Event.writeResult ∈ (processTask env tid default_repo_dir).2 ↔
      ∃ r c, (processTask env tid default_repo_dir).1 = Except.ok r ∧
        r.test_exit_code = some c) ∧
    (Event.writeResult ∈ (processTask env tid default_repo_dir).2 →
      ∃ tr nm, (processTask env tid default_repo_dir).2 = tr ++ [Event.writeResult] ∧
        Event.stopRm nm ∈ tr ∧ Event.writeResult ∉ tr) := by
  by_cases hd : env.dockerfileExists = false
  · simp [processTask, hd, initialResult]
  · by_cases ht : env.testCmdFileExists = false
    · simp [processTask, hd, ht, initialResult]
    · rcases hread : env.readTestCmd with e | raw
      · simp [processTask, hd, ht, hread]
      · by_cases hemp : pyStrip raw = ""
        · simp [processTask, hd, ht, hread, hemp, initialResult]
        · rcases hbuild : env.buildRes with e | bc
          · simp [processTask, hd, ht, hread, hemp, hbuild]
          · by_cases hbc : bc ≠ 0
            · simp [processTask, hd, ht, hread, hemp, hbuild, hbc, initialResult]
            · rcases hins : env.inspectRes with e | out
              · simp [processTask, hd, ht, hread, hemp, hbuild, hbc, hins]
              · rcases hstart : env.startRes with e | sc
                · simp [processTask, hd, ht, hread, hemp, hbuild, hbc, hins, hstart,
                    taskBody_no_writeResult]
                · by_cases hsc : sc ≠ 0
                  · simp [processTask, hd, ht, hread, hemp, hbuild, hbc, hins, hstart,
                      hsc, initialResult]
                  · rcases hstop : env.stopRes with e | u
                    · simp [processTask, hd, ht, hread, hemp, hbuild, hbc, hins, hstart,
                        hsc, hstop, taskBody_no_writeResult]
                    · rcases hbo : (taskBody env
                          { initialResult tid env.logsDir with
                              build_ok := decide (bc = 0),
                              repo_dir := some (resolve_repo_dir out env.dockerfileText
                                default_repo_dir) }
                          (unique_container_name tid env.nameSuffix)
                          (resolve_repo_dir out env.dockerfileText default_repo_dir)
                          (pyStrip raw)).1 with e | fr
                      · simp [processTask, hd, ht, hread, hemp, hbuild, hbc, hins, hstart,
                          hsc, hstop, hbo, taskBody_no_writeResult]
                      · obtain ⟨bb, rr⟩ := fr
                        have hs := taskBody_spec env _ _ _ _ bb rr hbo
                        cases bb with
                        | true =>
                          obtain ⟨h1, h2, c, h3, h4, h5⟩ := hs.1 rfl
                          constructor
                          · constructor
                            · intro _
                              refine ⟨rr, c, ?_, h4⟩
                              simp [processTask, hd, ht, hread, hemp, hbuild, hbc, hins,
                                hstart, hsc, hstop, hbo]
                            · intro _
                              simp [processTask, hd, ht, hread, hemp, hbuild, hbc, hins,
                                hstart, hsc, hstop, hbo]
                          · intro _
                            refine ⟨[Event.build, Event.inspect,
                                Event.start (unique_container_name tid env.nameSuffix)] ++
                                (taskBody env
                                  { initialResult tid env.logsDir with
                                      build_ok := decide (bc = 0),
                                      repo_dir := some (resolve_repo_dir out
                                        env.dockerfileText default_repo_dir) }
                                  (unique_container_name tid env.nameSuffix)
                                  (resolve_repo_dir out env.dockerfileText default_repo_dir)
                                  (pyStrip raw)).2 ++
                                [Event.stopRm (unique_container_name tid env.nameSuffix)],
                              unique_container_name tid env.nameSuffix, ?_, ?_, ?_⟩
                            · simp [processTask, hd, ht, hread, hemp, hbuild, hbc, hins,
                                hstart, hsc, hstop, hbo]
                            · simp
                            · simp [taskBody_no_writeResult]
                        | false =>
                          obtain ⟨h1, h2, h3, h4⟩ := hs.2 rfl
                          have hrtc : rr.test_exit_code = none := by
                            rw [h2]
                            simp [initialResult]
                          constructor
                          · constructor
                            · intro hmem
                              exfalso
                              simp [processTask, hd, ht, hread, hemp, hbuild, hbc, hins,
                                hstart, hsc, hstop, hbo, taskBody_no_writeResult] at hmem
                            · rintro ⟨r, c, hr, hc⟩
                              exfalso
                              have : r = rr := by
                                simp [processTask, hd, ht, hread, hemp, hbuild, hbc, hins,
                                  hstart, hsc, hstop, hbo] at hr
                                exact hr.symm
                              rw [this, hrtc] at hc
                              exact Option.noConfusion hc
                          · intro hmem
                            exfalso
                            simp [processTask, hd, ht, hread, hemp, hbuild, hbc, hins,
                              hstart, hsc, hstop, hbo, taskBody_no_writeResult] at hmem

/-- Extract the returned record of a normal `process_task` return. -/
def okOr (d : ResultRecord) : Except Unit ResultRecord → ResultRecord
  | .ok r => r
  | .error _ => d

/-- Environment whose agent patch exists but whose `docker cp` of it exits 1:
the task ends skipped. -/
def envCopyFail : PEnv := { envBase with agentPatchExists := true, cpAgentRes := .ok 1 }

/-- C2 counterexample: a task that ends skipped (agent-patch copy failure)
finishes processing — its container is even torn down — yet `result.json`
is never written, refuting "persisted exactly once for every task
(including tasks that end skipped)". -/
theorem result_json_write_cex :
    (okOr (initialResult "1" "x") (processTask envCopyFail "1" "/app").1).skipped = true ∧
    Event.stopRm "task1_runner_abc12345" ∈ (processTask envCopyFail "1" "/app").2 ∧
    Event.writeResult ∉ (processTask envCopyFail "1" "/app").2 := by
  decide

/-- C3: corrected.  The original "for every task, exactly one Result
Record is produced" is false: when an external call raises, the exception
escapes `process_task` and no record is produced at all (see the
counterexample).  The amended statement proved here: when no external
call raises, `process_task` returns exactly one Result Record; and —
unconditionally — every returned record satisfies the invariant that a
skipped record has no test exit code (the exit code is only recorded at
step 7, which a skip never reaches). -/
theorem one_record_and_skip_invariant (env : PEnv) (tid default_repo_dir : String) :
    (env.noRaise = true → ∃! r, (processTask env tid default_repo_dir).1 = Except.ok r) ∧
    (∀ r, (processTask env tid default_repo_dir).1 = Except.ok r → r.skipped = true →
      r.test_exit_code = none) := by
  constructor
  · intro hnr
    simp only [PEnv.noRaise, Bool.and_eq_true] at hnr
    obtain ⟨⟨⟨⟨⟨⟨⟨⟨⟨⟨⟨⟨h1, h2⟩, h3⟩, h4⟩, h5⟩, h6⟩, h7⟩, h8⟩, h9⟩, h10⟩, h11⟩, h12⟩, h13⟩ := hnr
    have hstr : ∀ j : Fin 7, exOk (env.agentApply.stratRes j) = true := by
      intro j
      exact List.all_eq_true.mp h8 j (List.mem_finRange j)
    have hex : exOk (processTask env tid default_repo_dir).1 = true := by
      by_cases hd : env.dockerfileExists = false
      · simp [processTask, hd, exOk]
      · by_cases ht : env.testCmdFileExists = false
        · simp [processTask, hd, ht, exOk]
        · obtain ⟨raw, hread⟩ := exOk_exists _ h1
          by_cases hemp : pyStrip raw = ""
          · simp [processTask, hd, ht, hread, hemp, exOk]
          · obtain ⟨bc, hbuild⟩ := exOk_exists _ h2
            by_cases hbc : bc ≠ 0
            · simp [processTask, hd, ht, hread, hemp, hbuild, hbc, exOk]
            · obtain ⟨out, hins⟩ := exOk_exists _ h3
              obtain ⟨sc, hstart⟩ := exOk_exists _ h4
              by_cases hsc : sc ≠ 0
              · simp [processTask, hd, ht, hread, hemp, hbuild, hbc, hins,
                  hstart, hsc, exOk]
              · obtain ⟨u, hstop⟩ := exOk_exists _ h13
                obtain ⟨p, hbo⟩ := exOk_exists _
                  (taskBody_ok env
                    { initialResult tid env.logsDir with
                        build_ok := decide (bc = 0),
                        repo_dir := some (resolve_repo_dir out env.dockerfileText
                          default_repo_dir) }
                    (unique_container_name tid env.nameSuffix)
                    (resolve_repo_dir out env.dockerfileText default_repo_dir)
                    (pyStrip raw) h5 h6 h7 hstr h9 h10 h11 h12)
                by_cases hfr : p.1
                · simp [processTask, hd, ht, hread, hemp, hbuild, hbc,
                    hins, hstart, hsc, hstop, hbo, hfr, exOk]
                · simp [processTask, hd, ht, hread, hemp, hbuild, hbc,
                    hins, hstart, hsc, hstop, hbo, hfr, exOk]
    obtain ⟨r, hr⟩ := exOk_exists _ hex
    exact ⟨r, hr, fun y hy => Except.ok.inj (hy.symm.trans hr)⟩
  · intro r hr hskip
    by_cases hd : env.dockerfileExists = false
    · simp [processTask, hd] at hr
      rw [← hr]
      simp [initialResult]
    · by_cases ht : env.testCmdFileExists = false
      · simp [processTask, hd, ht] at hr
        rw [← hr]
        simp [initialResult]
      · rcases hread : env.readTestCmd with e | raw
        · simp [processTask, hd, ht, hread] at hr
        · by_cases hemp : pyStrip raw = ""
          · simp [processTask, hd, ht, hread, hemp] at hr
            rw [← hr]
            simp [initialResult]
          · rcases hbuild : env.buildRes with e | bc
            · simp [processTask, hd, ht, hread, hemp, hbuild] at hr
            · by_cases hbc : bc ≠ 0
              · simp [processTask, hd, ht, hread, hemp, hbuild, hbc] at hr
                rw [← hr]
                simp [initialResult]
              · rcases hins : env.inspectRes with e | out
                · simp [processTask, hd, ht, hread, hemp, hbuild, hbc, hins] at hr
                · rcases hstart : env.startRes with e | sc
                  · simp [processTask, hd, ht, hread, hemp, hbuild, hbc, hins, hstart] at hr
                  · by_cases hsc : sc ≠ 0
                    · simp [processTask, hd, ht, hread, hemp, hbuild, hbc, hins, hstart,
                        hsc] at hr
                      rw [← hr]
                      simp [initialResult]
                    · rcases hstop : env.stopRes with e | u
                      · simp [processTask, hd, ht, hread, hemp, hbuild, hbc, hins, hstart,
                          hsc, hstop] at hr
                      · rcases hbo : (taskBody env
                            { initialResult tid env.logsDir with
                                build_ok := decide (bc = 0),
                                repo_dir := some (resolve_repo_dir out env.dockerfileText
                                  default_repo_dir) }
                            (unique_container_name tid env.nameSuffix)
                            (resolve_repo_dir out env.dockerfileText default_repo_dir)
                            (pyStrip raw)).1 with e | fr
                        · simp [processTask, hd, ht, hread, hemp, hbuild, hbc, hins,
                            hstart, hsc, hstop, hbo] at hr
                        · obtain ⟨bb, rr⟩ := fr
                          have hs := taskBody_spec env _ _ _ _ bb rr hbo
                          have hrr : r = rr := by
                            cases bb with
                            | true =>
                              simp [processTask, hd, ht, hread, hemp, hbuild, hbc, hins,
                                hstart, hsc, hstop, hbo] at hr
                              exact hr.symm
                            | false =>
                              simp [processTask, hd, ht, hread, hemp, hbuild, hbc, hins,
                                hstart, hsc, hstop, hbo] at hr
                              exact hr.symm
                          subst hrr
                          cases bb with
                          | true =>
                            obtain ⟨h1, _, c, _, h4, _⟩ := hs.1 rfl
                            exfalso
                            rw [hskip] at h1
                            have : ({ initialResult tid env.logsDir with
                                build_ok := decide (bc = 0),
                                repo_dir := some (resolve_repo_dir out env.dockerfileText
                                  default_repo_dir) } : ResultRecord).skipped = false := by
                              simp [initialResult]
                            rw [this] at h1
                            exact Bool.noConfusion h1
                          | false =>
                            obtain ⟨_, h2, _, _⟩ := hs.2 rfl
                            rw [h2]
                            simp [initialResult]

/-! ## Test exit code is the sole pass criterion (C7) -/

/-- C7: confirmed.  For a task whose processing ran the test command
(step 7) and returned a record, the record is not skipped, it stores the
raw exit code, and `test_ok` holds exactly when that code is zero. -/
theorem test_exit_criterion (env : PEnv) (tid default_repo_dir : String)
    (r : ResultRecord) (tr : List Event) (cmd : String)
    (h : processTask env tid default_repo_dir = (Except.ok r, tr))
    (hrun : Event.runTest cmd ∈ tr) :
    r.skipped = false ∧ ∃ c, env.testRunRes = Except.ok c ∧
      r.test_exit_code = some c ∧ r.test_ok = decide (c = 0) := by
  have h1 : (processTask env tid default_repo_dir).1 = Except.ok r := by rw [h]
  have h2 : (processTask env tid default_repo_dir).2 = tr := by rw [h]
  rw [← h2] at hrun
  by_cases hd : env.dockerfileExists = false
  · simp [processTask, hd] at hrun
  · by_cases ht : env.testCmdFileExists = false
    · simp [processTask, hd, ht] at hrun
    · rcases hread : env.readTestCmd with e | raw
      · simp [processTask, hd, ht, hread] at hrun
      · by_cases hemp : pyStrip raw = ""
        · simp [processTask, hd, ht, hread, hemp] at hrun
        · rcases hbuild : env.buildRes with e | bc
          · simp [processTask, hd, ht, hread, hemp, hbuild] at hrun
          · by_cases hbc : bc ≠ 0
            · simp [processTask, hd, ht, hread, hemp, hbuild, hbc] at hrun
            · rcases hins : env.inspectRes with e | out
              · simp [processTask, hd, ht, hread, hemp, hbuild, hbc, hins] at hrun
              · rcases hstart : env.startRes with e | sc
                · simp [processTask, hd, ht, hread, hemp, hbuild, hbc, hins, hstart] at h1
                · by_cases hsc : sc ≠ 0
                  · simp [processTask, hd, ht, hread, hemp, hbuild, hbc, hins, hstart,
                      hsc] at hrun
                  · rcases hstop : env.stopRes with e | u
                    · simp [processTask, hd, ht, hread, hemp, hbuild, hbc, hins, hstart,
                        hsc, hstop] at h1
                    · rcases hbo : (taskBody env
                          { initialResult tid env.logsDir with
                              build_ok := decide (bc = 0),
                              repo_dir := some (resolve_repo_dir out env.dockerfileText
                                default_repo_dir) }
                          (unique_container_name tid env.nameSuffix)
                          (resolve_repo_dir out env.dockerfileText default_repo_dir)
                          (pyStrip raw)).1 with e | fr
                      · simp [processTask, hd, ht, hread, hemp, hbuild, hbc, hins, hstart,
                          hsc, hstop, hbo] at h1
                      · obtain ⟨bb, rr⟩ := fr
                        have hs := taskBody_spec env _ _ _ _ bb rr hbo
                        cases bb with
                        | true =>
                          have hrr : r = rr := by
                            simp [processTask, hd, ht, hread, hemp, hbuild, hbc, hins,
                              hstart, hsc, hstop, hbo] at h1
                            exact h1.symm
                          subst hrr
                          obtain ⟨hsk, _, c, hc1, hc2, hc3⟩ := hs.1 rfl
                          refine ⟨?_, c, hc1, hc2, hc3⟩
                          rw [hsk]
                          simp [initialResult]
                        | false =>
                          exfalso
                          obtain ⟨_, _, _, h4⟩ := hs.2 rfl
                          simp [processTask, hd, ht, hread, hemp, hbuild, hbc, hins,
                            hstart, hsc, hstop, hbo] at hrun
                          exact h4 cmd hrun

/-- Environment like `envBase` whose test command exits 7. -/
def envFail7 : PEnv := { envBase with testRunRes := .ok 7 }

/-- C7 witness: a test run that exits 7 yields a completed, non-skipped
record with the raw code stored and `test_ok` false. -/
theorem test_exit_criterion_witness :
    (okOr (initialResult "1" "x") (processTask envFail7 "1" "/app").1).skipped = false ∧
    ∃ c, envFail7.testRunRes = Except.ok c ∧
      (okOr (initialResult "1" "x") (processTask envFail7 "1" "/app").1).test_exit_code =
        some c ∧
      (okOr (initialResult "1" "x") (processTask envFail7 "1" "/app").1).test_ok =
        decide (c = 0) :=
  test_exit_criterion envFail7 "1" "/app"
    (okOr (initialResult "1" "x") (processTask envFail7 "1" "/app").1)
    (processTask envFail7 "1" "/app").2 "true" rfl (by decide)

/-! ## Precondition failures stop before container work (C8) -/

/-- C8: confirmed.  When the build file is missing, the test-command file is
missing, or the test command is empty after stripping, `process_task` emits
only log lines — no build, no container creation, no copy, no exec, no test
run, no teardown — and returns a record carrying a note. -/
theorem precondition_short_circuit (env : PEnv) (tid default_repo_dir : String)
    (h : env.dockerfileExists = false ∨ env.testCmdFileExists = false ∨
      ∃ s, env.readTestCmd = Except.ok s ∧ pyStrip s = "") :
    ((processTask env tid default_repo_dir).2).all Event.isEcho = true ∧
    ∃ r, (processTask env tid default_repo_dir).1 = Except.ok r ∧ r.notes ≠ [] := by
  by_cases hd : env.dockerfileExists = false
  · refine ⟨by simp [processTask, hd, Event.isEcho], ?_⟩
    exact ⟨{ initialResult tid env.logsDir with
        notes := (initialResult tid env.logsDir).notes ++ ["Missing Dockerfile"] },
      by simp [processTask, hd], by simp [initialResult]⟩
  · by_cases ht : env.testCmdFileExists = false
    · refine ⟨by simp [processTask, hd, ht, Event.isEcho], ?_⟩
      exact ⟨{ initialResult tid env.logsDir with
          notes := (initialResult tid env.logsDir).notes ++ ["Missing test_command.txt"] },
        by simp [processTask, hd, ht], by simp [initialResult]⟩
    · rcases h with h' | h' | ⟨s, hread, hemp⟩
      · exact absurd h' hd
      · exact absurd h' ht
      · refine ⟨by simp [processTask, hd, ht, hread, hemp, Event.isEcho], ?_⟩
        exact ⟨{ initialResult tid env.logsDir with
            notes := (initialResult tid env.logsDir).notes ++ ["Empty test command"] },
          by simp [processTask, hd, ht, hread, hemp], by simp [initialResult]⟩

/-- Environment whose build file is absent. -/
def envNoDockerfile : PEnv := { envBase with dockerfileExists := false }

/-- C8 witness: with the build file absent the task records a note and the
whole trace is log lines only. -/
theorem precondition_short_circuit_witness :
    ((processTask envNoDockerfile "1" "/app").2).all Event.isEcho = true ∧
    ∃ r, (processTask envNoDockerfile "1" "/app").1 = Except.ok r ∧ r.notes ≠ [] :=
  precondition_short_circuit envNoDockerfile "1" "/app" (Or.inl rfl)

/-! ## Process exit code (C9) -/

theorem mainLoop_spec (l : List (String × PEnv)) (acc : List ResultRecord) :
    ((mainLoop l acc).1 = 0 ∨ (mainLoop l acc).1 = 1) ∧
    ((mainLoop l acc).1 = 0 ↔
      ∀ t ∈ l, ∃ r, (processTask t.2 t.1 "/app").1 = Except.ok r) := by
  induction l generalizing acc with
  | nil => simp [mainLoop]
  | cons t rest ih =>
    rcases hp : (processTask t.2 t.1 "/app").1 with e | r
    · refine ⟨Or.inr (by simp [mainLoop, hp]), ?_, ?_⟩
      · intro h0
        simp [mainLoop, hp] at h0
      · intro hall
        obtain ⟨r, hr⟩ := hall t (List.mem_cons_self t rest)
        rw [hp] at hr
        exact absurd hr (by simp)
    · have hrec := ih (acc ++ [r])
      refine ⟨by simpa [mainLoop, hp] using hrec.1, ?_, ?_⟩
      · intro h0
        intro t' ht'
        rcases List.mem_cons.mp ht' with rfl | ht''
        · exact ⟨r, hp⟩
        · exact (hrec.2.mp (by simpa [mainLoop, hp] using h0)) t' ht''
      · intro hall
        have : (mainLoop rest (acc ++ [r])).1 = 0 :=
          hrec.2.mpr (fun t' ht' => hall t' (List.mem_cons_of_mem _ ht'))
        simpa [mainLoop, hp] using this

/-- C9: corrected.  The process exit status is always 0 or 1, and it is 0
exactly when the engine check returned 0, at least one task was discovered
(after the `--limit` cut), and no task's processing raised an uncaught
exception.  Besides the two documented non-zero cases (engine unavailable,
zero tasks), an exception escaping `process_task` also ends the run with a
non-zero status, because the loop in `main` has no `try/except`; task
failures and skips recorded in the Result Records still exit 0. -/
theorem main_exit_code (menv : MainEnv) :
    ((mainRun menv).1 = 0 ∨ (mainRun menv).1 = 1) ∧
    ((mainRun menv).1 = 0 ↔
      (menv.dockerVersionCode = Except.ok 0 ∧ (effTasks menv).isEmpty = false ∧
        ∀ t ∈ effTasks menv, ∃ r, (processTask t.2 t.1 "/app").1 = Except.ok r)) := by
  rcases hdv : menv.dockerVersionCode with e | code
  · refine ⟨Or.inr (by simp [mainRun, hdv]), ?_, ?_⟩
    · intro h0
      simp [mainRun, hdv] at h0
    · rintro ⟨h1, -, -⟩
      exact Except.noConfusion h1
  · by_cases hc : code ≠ 0
    · refine ⟨Or.inr (by simp [mainRun, hdv, hc]), ?_, ?_⟩
      · intro h0
        simp [mainRun, hdv, hc] at h0
      · rintro ⟨h1, -, -⟩
        exact absurd (Except.ok.inj h1) hc
    · push_neg at hc
      by_cases hemp : (effTasks menv).isEmpty
      · refine ⟨Or.inr (by simp [mainRun, hdv, hc, hemp]), ?_, ?_⟩
        · intro h0
          simp [mainRun, hdv, hc, hemp] at h0
        · rintro ⟨-, h2, -⟩
          rw [hemp] at h2
          exact Bool.noConfusion h2
      · have hloop := mainLoop_spec (effTasks menv) []
        subst hc
        refine ⟨?_, ?_, ?_⟩
        · rcases hloop.1 with h' | h'
          · exact Or.inl (by simpa [mainRun, hdv, hemp] using h')
          · exact Or.inr (by simpa [mainRun, hdv, hemp] using h')
        · intro h0
          refine ⟨rfl, by simpa using hemp, ?_⟩
          exact hloop.2.mp (by simpa [mainRun, hdv, hemp] using h0)
        · rintro ⟨-, -, hall⟩
          have := hloop.2.mpr hall
          simpa [mainRun, hdv, hemp] using this

/-- Environment whose `test_command.txt` read raises (e.g. a decode error):
the exception escapes `process_task`. -/
def envReadRaise : PEnv := { envBase with readTestCmd := .error () }

/-- C3 counterexample: when the `test_command.txt` read raises,
`process_task` propagates the exception and returns no Result Record at
all — refuting "for every task, exactly one Result Record is produced,
recording the outcome of that task alone". -/
theorem one_record_cex :
    (processTask envReadRaise "1" "/app").1 = Except.error () := by
  rfl

/-- A run with a working engine and one discovered task whose processing
raises. -/
def menvCex : MainEnv :=
  { dockerVersionCode := .ok 0, taskEnvs := [("1", envReadRaise)], limit := 0 }

/-- C9 counterexample: the engine check succeeds and one task was
discovered, yet the process exits 1 because the task's processing raised —
refuting "non-zero exactly when the engine is unavailable or zero tasks
were discovered". -/
theorem main_exit_code_cex :
    (mainRun menvCex).1 = 1 ∧ menvCex.dockerVersionCode = Except.ok 0 ∧
    menvCex.taskEnvs.length = 1 :=
  ⟨by decide, rfl, rfl⟩
